import Mathlib

/-!
Verification development for the float manager (`nsFloatManager.cpp`).

The C++ source is embedded shallowly:

* `nscoord` (an integer app-unit coordinate) is modelled as `Int`, with the
  sentinels `nscoord_MAX` / `nscoord_MIN` as explicit constants; the source's
  explicit saturation checks are transcribed as `if`s.
* The virtual `ShapeInfo` interface is modelled as a structure of functions
  (one field per virtual method); the concrete polygon subclass is embedded
  separately and converted to the interface.
* The float registry, `GetFlowArea`, `AddFloat`, `ClearFloats`,
  `PushState`/`PopState` and `RemoveTrailingRegions` are transcribed
  operation by operation.  External collaborators (the frame tree, the style
  system) are modelled by the data the manager reads from them: a frame is an
  opaque identity (`Nat`), and the resolved physical float style
  (`mFrame->StyleDisplay()->PhysicalFloats(aWM)`) is carried on each
  `FloatInfo` entry.
* C++ truncating integer division is `Int.tdiv`.
-/

namespace FloatMgr

/-- `nscoord` is Gecko's app-unit coordinate; modelled as `Int` with the
explicit saturation sentinels below. -/
abbrev nscoord := Int

/-- Maximum representable coordinate sentinel (`nscoord_MAX`). -/
def nscoord_MAX : Int := 2 ^ 30 - 1

/-- Minimum coordinate sentinel (`nscoord_MIN`). -/
def nscoord_MIN : Int := -(2 ^ 30)

/-- `nsPoint`: a physical/flow-logical point (x on the line axis, y on the
block axis in the float manager's coordinate space). -/
structure nsPoint where
  x : Int
  y : Int
deriving DecidableEq

/-- Pointwise subtraction of points (`aP2 - aP0` in the source). -/
def nsPoint.sub (p q : nsPoint) : nsPoint := ⟨p.x - q.x, p.y - q.y⟩

/-- `nsRect` in the float manager's flow-logical space: `x` is the line-left
edge, `y` the block-start edge. -/
structure nsRect where
  x : Int
  y : Int
  width : Int
  height : Int
deriving DecidableEq

/-- `nsRect::XMost()`. -/
def nsRect.XMost (r : nsRect) : Int := r.x + r.width

/-- `nsRect::YMost()`. -/
def nsRect.YMost (r : nsRect) : Int := r.y + r.height

/-- `nsRect::IsEmpty()`: true when the rect has no area. -/
def nsRect.IsEmpty (r : nsRect) : Bool := r.height ≤ 0 || r.width ≤ 0

/-- `nsRect::MoveBy` / `operator+(nsPoint)`: translate a rect. -/
def nsRect.MoveBy (r : nsRect) (dx dy : Int) : nsRect :=
  { r with x := r.x + dx, y := r.y + dy }

/-- `BandInfoType` from `nsFloatManager.h` (used as an argument of
`GetFlowArea` in the source). -/
inductive BandInfoType where
  | BandFromPoint
  | WidthWithinHeight
deriving DecidableEq

/-- `ShapeType` from `nsFloatManager.h`: which geometry of a float a query
considers. -/
inductive ShapeType where
  | Margin
  | ShapeOutside
deriving DecidableEq

/-- `StyleFloat` restricted to the two values `PhysicalFloats` can return
(the source asserts `floatStyle == StyleFloat::Left || floatStyle ==
StyleFloat::Right`). -/
inductive StyleFloat where
  | Left
  | Right
deriving DecidableEq

/-- `StyleClear` values distinguished by `ClearFloats`; every other
enumerator falls into the source's `default: do nothing` branch, represented
by `None`. -/
inductive StyleClear where
  | None
  | Left
  | Right
  | Both
deriving DecidableEq

/-- The virtual `ShapeInfo` interface: one field per pure virtual method.
Each concrete shape strategy of the source provides these functions. -/
structure ShapeInfo where
  lineLeft : Int → Int → Int
  lineRight : Int → Int → Int
  bStart : Int
  bEnd : Int
  isEmpty : Bool

/-- `nsFloatManager::FloatInfo`: one registered float.  `mFrame` is the
opaque frame identity; `mFloatStyle` models the externally supplied
`mFrame->StyleDisplay()->PhysicalFloats(aWM)`; `mRect` is the margin box in
flow-logical coordinates (already translated by the origin at insertion
time); `mShapeInfo` is the optional shape strategy. -/
structure FloatInfo where
  mFrame : Nat
  mFloatStyle : StyleFloat
  mLeftBEnd : Int
  mRightBEnd : Int
  mRect : nsRect
  mShapeInfo : Option ShapeInfo

/-- Modelled from the spec: the header's inline accessor
`FloatInfo::LineLeft()` returns the margin rect's line-left edge
(spec §3: `rect` is the margin-box rectangle in flow-logical coordinates). -/
def FloatInfo.rectLineLeft (fi : FloatInfo) : Int := fi.mRect.x

/-- Modelled from the spec: header accessor `FloatInfo::LineRight()`,
the margin rect's line-right edge. -/
def FloatInfo.rectLineRight (fi : FloatInfo) : Int := fi.mRect.XMost

/-- Modelled from the spec: header accessor `FloatInfo::BStart()`,
the margin rect's block-start edge. -/
def FloatInfo.rectBStart (fi : FloatInfo) : Int := fi.mRect.y

/-- Modelled from the spec: header accessor `FloatInfo::BEnd()`,
the margin rect's block-end edge. -/
def FloatInfo.rectBEnd (fi : FloatInfo) : Int := fi.mRect.YMost

/-- Modelled from the spec: header accessor `FloatInfo::IsEmpty()`,
whether the margin rect has no area. -/
def FloatInfo.rectIsEmpty (fi : FloatInfo) : Bool := fi.mRect.IsEmpty

/-- `FloatInfo::LineLeft(ShapeType, aBStart, aBEnd)`: for `ShapeOutside`
with a shape present, the shape's line-left edge clipped to the margin box
(`std::max(LineLeft(), mShapeInfo->LineLeft(aBStart, aBEnd))`). -/
def FloatInfo.LineLeft (fi : FloatInfo) (aShapeType : ShapeType)
    (aBStart aBEnd : Int) : Int :=
  match aShapeType with
  | ShapeType.Margin => fi.rectLineLeft
  | ShapeType.ShapeOutside =>
    match fi.mShapeInfo with
    | none => fi.rectLineLeft
    | some s => max fi.rectLineLeft (s.lineLeft aBStart aBEnd)

/-- `FloatInfo::LineRight(ShapeType, aBStart, aBEnd)`:
`std::min(LineRight(), mShapeInfo->LineRight(aBStart, aBEnd))`. -/
def FloatInfo.LineRight (fi : FloatInfo) (aShapeType : ShapeType)
    (aBStart aBEnd : Int) : Int :=
  match aShapeType with
  | ShapeType.Margin => fi.rectLineRight
  | ShapeType.ShapeOutside =>
    match fi.mShapeInfo with
    | none => fi.rectLineRight
    | some s => min fi.rectLineRight (s.lineRight aBStart aBEnd)

/-- `FloatInfo::BStart(ShapeType)`:
`std::max(BStart(), mShapeInfo->BStart())`. -/
def FloatInfo.BStart (fi : FloatInfo) (aShapeType : ShapeType) : Int :=
  match aShapeType with
  | ShapeType.Margin => fi.rectBStart
  | ShapeType.ShapeOutside =>
    match fi.mShapeInfo with
    | none => fi.rectBStart
    | some s => max fi.rectBStart s.bStart

/-- `FloatInfo::BEnd(ShapeType)`:
`std::min(BEnd(), mShapeInfo->BEnd())`. -/
def FloatInfo.BEnd (fi : FloatInfo) (aShapeType : ShapeType) : Int :=
  match aShapeType with
  | ShapeType.Margin => fi.rectBEnd
  | ShapeType.ShapeOutside =>
    match fi.mShapeInfo with
    | none => fi.rectBEnd
    | some s => min fi.rectBEnd s.bEnd

/-- `FloatInfo::IsEmpty(ShapeType)`: the shape's emptiness when a shape is
present and `ShapeOutside` is requested, otherwise the margin rect's. -/
def FloatInfo.IsEmpty (fi : FloatInfo) (aShapeType : ShapeType) : Bool :=
  match aShapeType with
  | ShapeType.Margin => fi.rectIsEmpty
  | ShapeType.ShapeOutside =>
    match fi.mShapeInfo with
    | none => fi.rectIsEmpty
    | some s => s.isEmpty

/-- `nsFloatManager`: origin offset, float registry, pagination break flags,
and the damage sink (modelled as an opaque list of accumulated entries). -/
structure nsFloatManager where
  mLineLeft : Int
  mBlockStart : Int
  mFloats : List FloatInfo
  mPushedLeftFloatPastBreak : Bool
  mPushedRightFloatPastBreak : Bool
  mSplitLeftFloatAcrossBreak : Bool
  mSplitRightFloatAcrossBreak : Bool
  mFloatDamage : List Int

/-- The `nsFloatManager` constructor: origin `(0, 0)`, no floats, all break
flags clear, empty damage sink. -/
def nsFloatManager.new : nsFloatManager :=
  { mLineLeft := 0, mBlockStart := 0, mFloats := [],
    mPushedLeftFloatPastBreak := false, mPushedRightFloatPastBreak := false,
    mSplitLeftFloatAcrossBreak := false, mSplitRightFloatAcrossBreak := false,
    mFloatDamage := [] }

/-- Modelled from the spec: header inline `HasAnyFloats()` — whether the
registry is non-empty. -/
def nsFloatManager.HasAnyFloats (m : nsFloatManager) : Bool :=
  !m.mFloats.isEmpty

/-- `nsFlowAreaRect`: the result of `GetFlowArea` (a logical rect plus the
`mHasFloats` flag). -/
structure nsFlowAreaRect where
  iStart : Int
  bStart : Int
  iSize : Int
  bSize : Int
  mHasFloats : Bool
deriving DecidableEq

/-- Modelled from the spec: `LogicalRect::LineLeft(aWM, aContainerSize)` —
under bidi-LTR the line-left edge is the inline start; under RTL the inline
axis is mirrored at the container's inline size (spec §3, coordinate
frame). -/
def logicalLineLeft (aWMIsBidiLTR : Bool) (iStart iSize containerISize : Int) :
    Int :=
  if aWMIsBidiLTR then iStart else containerISize - (iStart + iSize)

/-- The mutable band state of `GetFlowArea`'s backward walk:
`lineLeft`, `lineRight`, `blockEnd`, `haveFloats`. -/
structure FlowState where
  lineLeft : Int
  lineRight : Int
  blockEnd : Int
  haveFloats : Bool
deriving DecidableEq

/-- The band block end passed to the shape query: under `BandFromPoint` the
query considers only the point `blockStart`, otherwise the whole band. -/
def bandBlockEndFor (aBandInfoType : BandInfoType) (blockStart blockEnd : Int) :
    Int :=
  if aBandInfoType = BandInfoType.BandFromPoint then blockStart else blockEnd

/-- The side-dependent inline narrowing of `GetFlowArea`'s loop body: a left
float may raise `lineLeft` to its line-right edge, a right float may lower
`lineRight` to its line-left edge; `haveFloats` is set exactly when an edge
moves. -/
def flowStepNarrow (aBandInfoType : BandInfoType) (aShapeType : ShapeType)
    (blockStart : Int) (fi : FloatInfo) (st : FlowState) : FlowState :=
  match fi.mFloatStyle with
  | StyleFloat.Left =>
    if fi.LineRight aShapeType blockStart
        (bandBlockEndFor aBandInfoType blockStart st.blockEnd) > st.lineLeft then
      { st with
        lineLeft := fi.LineRight aShapeType blockStart
          (bandBlockEndFor aBandInfoType blockStart st.blockEnd),
        haveFloats := true }
    else st
  | StyleFloat.Right =>
    if fi.LineLeft aShapeType blockStart
        (bandBlockEndFor aBandInfoType blockStart st.blockEnd) < st.lineRight then
      { st with
        lineRight := fi.LineLeft aShapeType blockStart
          (bandBlockEndFor aBandInfoType blockStart st.blockEnd),
        haveFloats := true }
    else st

/-- One iteration of `GetFlowArea`'s loop body for a non-breaking float
(the part after the `mLeftBEnd`/`mRightBEnd` early-out test): skip empty
areas, contract the band below a not-yet-reached float under
`BandFromPoint`, otherwise narrow the band on the float's side and (under
`BandFromPoint`) contract the band at the float's block end. -/
def flowStep (aBandInfoType : BandInfoType) (aShapeType : ShapeType)
    (blockStart : Int) (fi : FloatInfo) (st : FlowState) : FlowState :=
  if fi.IsEmpty aShapeType then st
  else if blockStart < fi.BStart aShapeType ∧
      aBandInfoType = BandInfoType.BandFromPoint then
    if fi.BStart aShapeType < st.blockEnd then
      { st with blockEnd := fi.BStart aShapeType }
    else st
  else if blockStart < fi.BEnd aShapeType ∧
      (fi.BStart aShapeType < st.blockEnd ∨
        (fi.BStart aShapeType = st.blockEnd ∧ blockStart = st.blockEnd)) then
    if fi.BEnd aShapeType <
        (flowStepNarrow aBandInfoType aShapeType blockStart fi st).blockEnd ∧
        aBandInfoType = BandInfoType.BandFromPoint then
      { flowStepNarrow aBandInfoType aShapeType blockStart fi st with
        blockEnd := fi.BEnd aShapeType }
    else flowStepNarrow aBandInfoType aShapeType blockStart fi st
  else st

/-- `GetFlowArea`'s backward walk over the in-scope floats (the list is the
in-scope registry, reversed so the tail is visited first), stopping as soon
as a float has both cumulative block ends at or above the band start. -/
def getFlowAreaLoop (aBandInfoType : BandInfoType) (aShapeType : ShapeType)
    (blockStart : Int) (st : FlowState) : List FloatInfo → FlowState
  | [] => st
  | fi :: rest =>
    if fi.mLeftBEnd ≤ blockStart ∧ fi.mRightBEnd ≤ blockStart then st
    else getFlowAreaLoop aBandInfoType aShapeType blockStart
      (flowStep aBandInfoType aShapeType blockStart fi st) rest

/-- The band start used by `GetFlowArea`: `aBCoord + mBlockStart`, saturated
at `nscoord_MIN`. -/
def getFlowAreaBlockStart (m : nsFloatManager) (aBCoord : Int) : Int :=
  if aBCoord + m.mBlockStart < nscoord_MIN then nscoord_MIN
  else aBCoord + m.mBlockStart

/-- The number of floats a `GetFlowArea` call considers: the saved state's
count when one is supplied, otherwise the whole registry. -/
def getFlowAreaFloatCount (m : nsFloatManager) (aState : Option Nat) : Nat :=
  match aState with
  | some c => c
  | none => m.mFloats.length

/-- The initial band block end: `blockStart + aBSize` saturated at
`nscoord_MAX`, with `aBSize == nscoord_MAX` forcing `nscoord_MAX`. -/
def getFlowAreaBlockEnd (blockStart aBSize : Int) : Int :=
  if aBSize = nscoord_MAX then nscoord_MAX
  else if blockStart + aBSize < blockStart ∨ blockStart + aBSize > nscoord_MAX then
    nscoord_MAX
  else blockStart + aBSize

/-- The initial band state of `GetFlowArea`'s main path: the origin-shifted
content-area edges (`lineRight` saturated at `lineLeft` from below) and the
saturated band block end. -/
def getFlowAreaInit (m : nsFloatManager) (aWMIsBidiLTR : Bool)
    (aBCoord aBSize : Int) (aContentIStart aContentISize : Int)
    (aContainerISize : Int) : FlowState :=
  { lineLeft := m.mLineLeft +
      logicalLineLeft aWMIsBidiLTR aContentIStart aContentISize aContainerISize,
    lineRight :=
      if m.mLineLeft + (logicalLineLeft aWMIsBidiLTR aContentIStart
            aContentISize aContainerISize + aContentISize) <
          m.mLineLeft + logicalLineLeft aWMIsBidiLTR aContentIStart
            aContentISize aContainerISize then
        m.mLineLeft + logicalLineLeft aWMIsBidiLTR aContentIStart
          aContentISize aContainerISize
      else
        m.mLineLeft + (logicalLineLeft aWMIsBidiLTR aContentIStart
          aContentISize aContainerISize + aContentISize),
    blockEnd := getFlowAreaBlockEnd (getFlowAreaBlockStart m aBCoord) aBSize,
    haveFloats := false }

/-- The band edges `GetFlowArea` computes on its main path (the final
`lineLeft`/`lineRight`/`blockEnd`/`haveFloats` after the walk), in the
manager's line-left frame. -/
def getFlowAreaEdges (m : nsFloatManager) (aWMIsBidiLTR : Bool)
    (aBCoord aBSize : Int) (aBandInfoType : BandInfoType)
    (aShapeType : ShapeType) (aContentIStart aContentISize : Int)
    (aState : Option Nat) (aContainerISize : Int) : FlowState :=
  getFlowAreaLoop aBandInfoType aShapeType (getFlowAreaBlockStart m aBCoord)
    (getFlowAreaInit m aWMIsBidiLTR aBCoord aBSize aContentIStart
      aContentISize aContainerISize)
    (m.mFloats.take (getFlowAreaFloatCount m aState)).reverse

/-- `nsFloatManager::GetFlowArea`.  The writing mode is represented by its
bidi direction (`aWMIsBidiLTR`), the content area by its inline start and
size, and the container by its inline size; `aState` is the optional saved
state's float count. -/
def nsFloatManager.GetFlowArea (m : nsFloatManager) (aWMIsBidiLTR : Bool)
    (aBCoord aBSize : Int) (aBandInfoType : BandInfoType)
    (aShapeType : ShapeType) (aContentIStart aContentISize : Int)
    (aState : Option Nat) (aContainerISize : Int) : nsFlowAreaRect :=
  match (m.mFloats.take (getFlowAreaFloatCount m aState)).getLast? with
  | none =>
    ⟨aContentIStart, aBCoord, aContentISize, aBSize, false⟩
  | some lastFi =>
    if lastFi.mLeftBEnd ≤ getFlowAreaBlockStart m aBCoord ∧
        lastFi.mRightBEnd ≤ getFlowAreaBlockStart m aBCoord then
      ⟨aContentIStart, aBCoord, aContentISize, aBSize, false⟩
    else
      { iStart :=
          if aWMIsBidiLTR then
            (getFlowAreaEdges m aWMIsBidiLTR aBCoord aBSize aBandInfoType
              aShapeType aContentIStart aContentISize aState
              aContainerISize).lineLeft - m.mLineLeft
          else
            m.mLineLeft - (getFlowAreaEdges m aWMIsBidiLTR aBCoord aBSize
              aBandInfoType aShapeType aContentIStart aContentISize aState
              aContainerISize).lineRight + aContainerISize,
        bStart := getFlowAreaBlockStart m aBCoord - m.mBlockStart,
        iSize :=
          (getFlowAreaEdges m aWMIsBidiLTR aBCoord aBSize aBandInfoType
            aShapeType aContentIStart aContentISize aState
            aContainerISize).lineRight -
          (getFlowAreaEdges m aWMIsBidiLTR aBCoord aBSize aBandInfoType
            aShapeType aContentIStart aContentISize aState
            aContainerISize).lineLeft,
        bSize :=
          if (getFlowAreaEdges m aWMIsBidiLTR aBCoord aBSize aBandInfoType
              aShapeType aContentIStart aContentISize aState
              aContainerISize).blockEnd = nscoord_MAX then nscoord_MAX
          else
            (getFlowAreaEdges m aWMIsBidiLTR aBCoord aBSize aBandInfoType
              aShapeType aContentIStart aContentISize aState
              aContainerISize).blockEnd - getFlowAreaBlockStart m aBCoord,
        mHasFloats :=
          (getFlowAreaEdges m aWMIsBidiLTR aBCoord aBSize aBandInfoType
            aShapeType aContentIStart aContentISize aState
            aContainerISize).haveFloats }

/-- `nsFloatManager::AddFloat`.  The margin rect is supplied already
converted to flow-logical coordinates (`ShapeInfo::ConvertToFloatLogical`),
and the float's resolved physical side and optional shape strategy stand in
for the style-system lookups; translation by the current origin and the
cumulative `mLeftBEnd`/`mRightBEnd` computation follow the source. -/
def nsFloatManager.AddFloat (m : nsFloatManager) (aFrame : Nat)
    (aFloatStyle : StyleFloat) (aMarginRect : nsRect)
    (aShape : Option ShapeInfo) : nsFloatManager :=
  let info : FloatInfo :=
    { mFrame := aFrame, mFloatStyle := aFloatStyle,
      mRect := aMarginRect.MoveBy m.mLineLeft m.mBlockStart,
      mShapeInfo := aShape, mLeftBEnd := 0, mRightBEnd := 0 }
  let (leftBEnd, rightBEnd) :=
    match m.mFloats.getLast? with
    | some tail => (tail.mLeftBEnd, tail.mRightBEnd)
    | none => (nscoord_MIN, nscoord_MIN)
  let thisBEnd := info.rectBEnd
  let info :=
    match aFloatStyle with
    | StyleFloat.Left =>
      { info with
        mLeftBEnd := if thisBEnd > leftBEnd then thisBEnd else leftBEnd,
        mRightBEnd := rightBEnd }
    | StyleFloat.Right =>
      { info with
        mLeftBEnd := leftBEnd,
        mRightBEnd := if thisBEnd > rightBEnd then thisBEnd else rightBEnd }
  { m with mFloats := m.mFloats ++ [info] }

/-- `nsFloatManager::RemoveTrailingRegions`: drop trailing registry entries
whose frame is in the given set, stopping at the first trailing entry that
is not. -/
def nsFloatManager.RemoveTrailingRegions (m : nsFloatManager)
    (aFrameList : List Nat) : nsFloatManager :=
  let dropped :=
    (m.mFloats.reverse.takeWhile (fun fi => aFrameList.contains fi.mFrame)).length
  { m with mFloats := m.mFloats.take (m.mFloats.length - dropped) }

/-- `nsFloatManager::SavedState`. -/
structure SavedState where
  mLineLeft : Int
  mBlockStart : Int
  mPushedLeftFloatPastBreak : Bool
  mPushedRightFloatPastBreak : Bool
  mSplitLeftFloatAcrossBreak : Bool
  mSplitRightFloatAcrossBreak : Bool
  mFloatInfoCount : Nat
deriving DecidableEq

/-- `nsFloatManager::PushState`: capture the origin, the four break flags,
and the float count.  The damage sink is intentionally not saved. -/
def nsFloatManager.PushState (m : nsFloatManager) : SavedState :=
  { mLineLeft := m.mLineLeft, mBlockStart := m.mBlockStart,
    mPushedLeftFloatPastBreak := m.mPushedLeftFloatPastBreak,
    mPushedRightFloatPastBreak := m.mPushedRightFloatPastBreak,
    mSplitLeftFloatAcrossBreak := m.mSplitLeftFloatAcrossBreak,
    mSplitRightFloatAcrossBreak := m.mSplitRightFloatAcrossBreak,
    mFloatInfoCount := m.mFloats.length }

/-- `nsFloatManager::PopState`: restore origin and break flags, truncate the
registry to the saved count.  The damage sink is intentionally left
untouched. -/
def nsFloatManager.PopState (m : nsFloatManager) (aState : SavedState) :
    nsFloatManager :=
  { m with
    mLineLeft := aState.mLineLeft, mBlockStart := aState.mBlockStart,
    mPushedLeftFloatPastBreak := aState.mPushedLeftFloatPastBreak,
    mPushedRightFloatPastBreak := aState.mPushedRightFloatPastBreak,
    mSplitLeftFloatAcrossBreak := aState.mSplitLeftFloatAcrossBreak,
    mSplitRightFloatAcrossBreak := aState.mSplitRightFloatAcrossBreak,
    mFloats := m.mFloats.take aState.mFloatInfoCount }

/-- `nsFloatManager::Translate` (header): shift the origin; stored floats
are not moved. -/
def nsFloatManager.Translate (m : nsFloatManager) (aLineLeft aBlockStart : Int) :
    nsFloatManager :=
  { m with mLineLeft := m.mLineLeft + aLineLeft,
           mBlockStart := m.mBlockStart + aBlockStart }

/-- Modelled from the spec: the single `ClearFloats` flag bit
`DONT_CLEAR_PUSHED_FLOATS` declared in `nsFloatManager.h`. -/
def DONT_CLEAR_PUSHED_FLOATS : Nat := 1

/-- `nsFloatManager::ClearContinues`: whether a float on the requested
side(s) was pushed past or split across a page/column break. -/
def nsFloatManager.ClearContinues (m : nsFloatManager)
    (aBreakType : StyleClear) : Bool :=
  ((m.mPushedLeftFloatPastBreak || m.mSplitLeftFloatAcrossBreak) &&
    (aBreakType = StyleClear.Both || aBreakType = StyleClear.Left)) ||
  ((m.mPushedRightFloatPastBreak || m.mSplitRightFloatAcrossBreak) &&
    (aBreakType = StyleClear.Both || aBreakType = StyleClear.Right))

/-- `nsFloatManager::ClearFloats`. -/
def nsFloatManager.ClearFloats (m : nsFloatManager) (aBCoord : Int)
    (aBreakType : StyleClear) (aFlags : Nat) : Int :=
  if aFlags &&& DONT_CLEAR_PUSHED_FLOATS = 0 ∧ m.ClearContinues aBreakType then
    nscoord_MAX
  else if !m.HasAnyFloats then
    aBCoord
  else
    let blockEnd := aBCoord + m.mBlockStart
    let blockEnd :=
      match m.mFloats.getLast? with
      | none => blockEnd
      | some tail =>
        match aBreakType with
        | StyleClear.Both => max (max blockEnd tail.mLeftBEnd) tail.mRightBEnd
        | StyleClear.Left => max blockEnd tail.mLeftBEnd
        | StyleClear.Right => max blockEnd tail.mRightBEnd
        | StyleClear.None => blockEnd
    blockEnd - m.mBlockStart

/-- `nsFloatManager::PolygonShapeInfo`: vertex list, emptiness flag, and the
precomputed block extent. -/
structure PolygonShapeInfo where
  mVertices : List nsPoint
  mEmpty : Bool
  mBStart : Int
  mBEnd : Int

/-- The local `Determinant` lambda of the `PolygonShapeInfo` constructor:
the determinant of the 2×2 matrix `[aP0 aP1]`. -/
def Determinant (aP0 aP1 : nsPoint) : Int := aP0.x * aP1.y - aP0.y * aP1.x

/-- The `PolygonShapeInfo` constructor: fewer than three vertices, or all
vertices collinear with the first two, give an empty polygon; otherwise the
block extent is accumulated with `std::min`/`std::max` from the sentinels. -/
def PolygonShapeInfo.construct (aVertices : List nsPoint) : PolygonShapeInfo :=
  match aVertices with
  | p0 :: p1 :: p2 :: rest =>
    let isEntirelyCollinear :=
      (p2 :: rest).all fun p => Determinant (p.sub p0) (p1.sub p0) == 0
    if isEntirelyCollinear then
      { mVertices := aVertices, mEmpty := true,
        mBStart := nscoord_MAX, mBEnd := nscoord_MIN }
    else
      { mVertices := aVertices, mEmpty := false,
        mBStart := aVertices.foldl (fun acc v => min acc v.y) nscoord_MAX,
        mBEnd := aVertices.foldl (fun acc v => max acc v.y) nscoord_MIN }
  | _ =>
    { mVertices := aVertices, mEmpty := true,
      mBStart := nscoord_MAX, mBEnd := nscoord_MIN }

/-- `PolygonShapeInfo::XInterceptAtY`: solve x in
`x = x1 + (y - y1) * (x2 - x1) / (y2 - y1)` with C++ truncating division.
The source's stated precondition is `aP1.y <= aY <= aP2.y` and
`aP1.y != aP2.y`. -/
def PolygonShapeInfo.XInterceptAtY (aY : Int) (aP1 aP2 : nsPoint) : Int :=
  aP1.x + Int.tdiv ((aY - aP1.y) * (aP2.x - aP1.x)) (aP2.y - aP1.y)

/-- `PolygonShapeInfo::ComputeLineIntercept`: fold over the polygon's edges
`{p0,p1}, {p1,p2}, …, {pn,p0}`, skipping edges outside the band and
horizontal edges, and combining the band-start/band-end intercepts of the
rest with `aCompareOp`. -/
def PolygonShapeInfo.ComputeLineIntercept (p : PolygonShapeInfo)
    (aBStart aBEnd : Int) (aCompareOp : Int → Int → Int)
    (aLineInterceptInitialValue : Int) : Int :=
  let len := p.mVertices.length
  (List.range len).foldl (fun lineIntercept i =>
    let v1 := p.mVertices.getD i ⟨0, 0⟩
    let v2 := p.mVertices.getD ((i + 1) % len) ⟨0, 0⟩
    let smallYVertex := if v1.y > v2.y then v2 else v1
    let bigYVertex := if v1.y > v2.y then v1 else v2
    if aBStart ≥ bigYVertex.y ∨ aBEnd ≤ smallYVertex.y ∨
        smallYVertex.y = bigYVertex.y then
      lineIntercept
    else
      let bStartLineIntercept :=
        if aBStart ≤ smallYVertex.y then smallYVertex.x
        else XInterceptAtY aBStart smallYVertex bigYVertex
      let bEndLineIntercept :=
        if aBEnd ≥ bigYVertex.y then bigYVertex.x
        else XInterceptAtY aBEnd smallYVertex bigYVertex
      aCompareOp (aCompareOp lineIntercept bStartLineIntercept)
        bEndLineIntercept) aLineInterceptInitialValue

/-- `PolygonShapeInfo::LineLeft`: the smallest intercept, starting from the
`nscoord_MAX` identity. -/
def PolygonShapeInfo.LineLeft (p : PolygonShapeInfo) (aBStart aBEnd : Int) :
    Int :=
  p.ComputeLineIntercept aBStart aBEnd min nscoord_MAX

/-- `PolygonShapeInfo::LineRight`: the largest intercept, starting from the
`nscoord_MIN` identity. -/
def PolygonShapeInfo.LineRight (p : PolygonShapeInfo) (aBStart aBEnd : Int) :
    Int :=
  p.ComputeLineIntercept aBStart aBEnd max nscoord_MIN

/-- The `ShapeInfo` vtable of a `PolygonShapeInfo` (the subclass's virtual
method overrides). -/
def PolygonShapeInfo.toShapeInfo (p : PolygonShapeInfo) : ShapeInfo :=
  { lineLeft := p.LineLeft, lineRight := p.LineRight,
    bStart := p.mBStart, bEnd := p.mBEnd, isEmpty := p.mEmpty }

/-- `ShapeInfo::XInterceptAtY`: solve x in the ellipse equation
`(x/radiusX)² + (y/radiusY)² = 1`.  The source computes
`aRadiusX * sqrt(1 - (aY*aY)/double(aRadiusY*aRadiusY))` in double
precision; the value is modelled with a total integer square root (the
claims about this helper concern only its guard `aRadiusY > 0`, which is
the divisor's nonzero-ness, not the rounded value). -/
def ShapeInfo.XInterceptAtY (aY aRadiusX aRadiusY : Int) : Int :=
  Int.tdiv (aRadiusX * Int.ofNat (Nat.sqrt (aRadiusY * aRadiusY - aY * aY).toNat))
    aRadiusY

/-- `ShapeInfo::ComputeEllipseLineInterceptDiff`: the line-axis intrusion of
a rounded corner within the band, zero when the band only meets the straight
middle of the side. -/
def ShapeInfo.ComputeEllipseLineInterceptDiff
    (aShapeBoxBStart aShapeBoxBEnd : Int)
    (aBStartCornerRadiusL aBStartCornerRadiusB : Int)
    (aBEndCornerRadiusL aBEndCornerRadiusB : Int)
    (aBandBStart aBandBEnd : Int) : Int :=
  if aBStartCornerRadiusB > 0 ∧ aBandBEnd ≥ aShapeBoxBStart ∧
      aBandBEnd ≤ aShapeBoxBStart + aBStartCornerRadiusB then
    let b := aBStartCornerRadiusB - (aBandBEnd - aShapeBoxBStart)
    let lineIntercept :=
      ShapeInfo.XInterceptAtY b aBStartCornerRadiusL aBStartCornerRadiusB
    aBStartCornerRadiusL - lineIntercept
  else if aBEndCornerRadiusB > 0 ∧
      aBandBStart ≥ aShapeBoxBEnd - aBEndCornerRadiusB ∧
      aBandBStart ≤ aShapeBoxBEnd then
    let b := aBEndCornerRadiusB - (aShapeBoxBEnd - aBandBStart)
    let lineIntercept :=
      ShapeInfo.XInterceptAtY b aBEndCornerRadiusL aBEndCornerRadiusB
    aBEndCornerRadiusL - lineIntercept
  else 0

/-- Guard-checked variant of the ellipse `XInterceptAtY`: `none` when the
stated precondition `aRadiusY > 0` (the `MOZ_ASSERT`, and the nonzero-ness
of the divisor) fails. -/
def ShapeInfo.XInterceptAtYChecked (aY aRadiusX aRadiusY : Int) : Option Int :=
  if aRadiusY > 0 then some (ShapeInfo.XInterceptAtY aY aRadiusX aRadiusY)
  else none

/-- `ComputeEllipseLineInterceptDiff` with every `XInterceptAtY` invocation
replaced by the guard-checked variant; used to verify that each invocation
satisfies the helper's precondition. -/
def ShapeInfo.ComputeEllipseLineInterceptDiffChecked
    (aShapeBoxBStart aShapeBoxBEnd : Int)
    (aBStartCornerRadiusL aBStartCornerRadiusB : Int)
    (aBEndCornerRadiusL aBEndCornerRadiusB : Int)
    (aBandBStart aBandBEnd : Int) : Option Int :=
  if aBStartCornerRadiusB > 0 ∧ aBandBEnd ≥ aShapeBoxBStart ∧
      aBandBEnd ≤ aShapeBoxBStart + aBStartCornerRadiusB then
    let b := aBStartCornerRadiusB - (aBandBEnd - aShapeBoxBStart)
    (ShapeInfo.XInterceptAtYChecked b aBStartCornerRadiusL
      aBStartCornerRadiusB).map (fun lineIntercept =>
        aBStartCornerRadiusL - lineIntercept)
  else if aBEndCornerRadiusB > 0 ∧
      aBandBStart ≥ aShapeBoxBEnd - aBEndCornerRadiusB ∧
      aBandBStart ≤ aShapeBoxBEnd then
    let b := aBEndCornerRadiusB - (aShapeBoxBEnd - aBandBStart)
    (ShapeInfo.XInterceptAtYChecked b aBEndCornerRadiusL
      aBEndCornerRadiusB).map (fun lineIntercept =>
        aBEndCornerRadiusL - lineIntercept)
  else some 0

/-- Guard-checked variant of the polygon `XInterceptAtY`: `none` when the
stated precondition (`aP1.y ≤ aY ≤ aP2.y` with a non-horizontal segment,
hence a nonzero divisor) fails. -/
def PolygonShapeInfo.XInterceptAtYChecked (aY : Int) (aP1 aP2 : nsPoint) :
    Option Int :=
  if aP1.y ≤ aY ∧ aY ≤ aP2.y ∧ aP1.y ≠ aP2.y then
    some (PolygonShapeInfo.XInterceptAtY aY aP1 aP2)
  else none

/-- `ComputeLineIntercept` with every `XInterceptAtY` invocation replaced by
the guard-checked variant; used to verify the branch structure supplies each
invocation's precondition. -/
def PolygonShapeInfo.ComputeLineInterceptChecked (p : PolygonShapeInfo)
    (aBStart aBEnd : Int) (aCompareOp : Int → Int → Int)
    (aLineInterceptInitialValue : Int) : Option Int :=
  let len := p.mVertices.length
  (List.range len).foldl (fun acc i =>
    acc.bind fun lineIntercept =>
      let v1 := p.mVertices.getD i ⟨0, 0⟩
      let v2 := p.mVertices.getD ((i + 1) % len) ⟨0, 0⟩
      let smallYVertex := if v1.y > v2.y then v2 else v1
      let bigYVertex := if v1.y > v2.y then v1 else v2
      if aBStart ≥ bigYVertex.y ∨ aBEnd ≤ smallYVertex.y ∨
          smallYVertex.y = bigYVertex.y then
        some lineIntercept
      else
        let bStartLineIntercept? :=
          if aBStart ≤ smallYVertex.y then some smallYVertex.x
          else XInterceptAtYChecked aBStart smallYVertex bigYVertex
        let bEndLineIntercept? :=
          if aBEnd ≥ bigYVertex.y then some bigYVertex.x
          else XInterceptAtYChecked aBEnd smallYVertex bigYVertex
        bStartLineIntercept?.bind fun a =>
          bEndLineIntercept?.map fun b =>
            aCompareOp (aCompareOp lineIntercept a) b)
    (some aLineInterceptInitialValue)

/-- The manager's mutating interface, for stating reachability invariants:
`PushState` writes only to its out-parameter, so it is the identity on the
manager; `IncludeInDamage` models the damage-sink feed declared in the
header. -/
inductive ManagerOp where
  | addFloat (aFrame : Nat) (aFloatStyle : StyleFloat) (aMarginRect : nsRect)
      (aShape : Option ShapeInfo)
  | removeTrailingRegions (aFrameList : List Nat)
  | pushState
  | popState (aState : SavedState)
  | translate (aLineLeft aBlockStart : Int)
  | setPushedLeftFloatPastBreak (b : Bool)
  | setPushedRightFloatPastBreak (b : Bool)
  | setSplitLeftFloatAcrossBreak (b : Bool)
  | setSplitRightFloatAcrossBreak (b : Bool)
  | includeInDamage (d : Int)

/-- Apply one operation to the manager. -/
def applyOp (m : nsFloatManager) : ManagerOp → nsFloatManager
  | ManagerOp.addFloat f fs r sh => m.AddFloat f fs r sh
  | ManagerOp.removeTrailingRegions l => m.RemoveTrailingRegions l
  | ManagerOp.pushState => m
  | ManagerOp.popState s => m.PopState s
  | ManagerOp.translate dl db => m.Translate dl db
  | ManagerOp.setPushedLeftFloatPastBreak b =>
    { m with mPushedLeftFloatPastBreak := b }
  | ManagerOp.setPushedRightFloatPastBreak b =>
    { m with mPushedRightFloatPastBreak := b }
  | ManagerOp.setSplitLeftFloatAcrossBreak b =>
    { m with mSplitLeftFloatAcrossBreak := b }
  | ManagerOp.setSplitRightFloatAcrossBreak b =>
    { m with mSplitRightFloatAcrossBreak := b }
  | ManagerOp.includeInDamage d =>
    { m with mFloatDamage := m.mFloatDamage ++ [d] }

/-- Apply a sequence of operations. -/
def runOps (m : nsFloatManager) : List ManagerOp → nsFloatManager
  | [] => m
  | op :: ops => runOps (applyOp m op) ops

/-- The operations permitted between a `PushState`/`PopState` pair in the
push/pop round-trip claim: float additions, origin translation, break-flag
changes, damage accumulation, and `PushState` itself (which does not mutate
the manager). -/
def isInnerOp : ManagerOp → Bool
  | ManagerOp.addFloat _ _ _ _ => true
  | ManagerOp.pushState => true
  | ManagerOp.translate _ _ => true
  | ManagerOp.setPushedLeftFloatPastBreak _ => true
  | ManagerOp.setPushedRightFloatPastBreak _ => true
  | ManagerOp.setSplitLeftFloatAcrossBreak _ => true
  | ManagerOp.setSplitRightFloatAcrossBreak _ => true
  | ManagerOp.includeInDamage _ => true
  | _ => false

/-! ### Concrete fixtures used by witnesses and counterexamples -/

/-- A left float with margin box `(0, 0, 200, 100)` and no shape, as
`AddFloat` registers it into an empty manager at origin `(0, 0)`. -/
def sampleFloat : FloatInfo :=
  { mFrame := 1, mFloatStyle := StyleFloat.Left, mLeftBEnd := 100,
    mRightBEnd := nscoord_MIN, mRect := ⟨0, 0, 200, 100⟩, mShapeInfo := none }

/-- A manager holding just `sampleFloat`. -/
def mgrOneLeftFloat : nsFloatManager :=
  { nsFloatManager.new with mFloats := [sampleFloat] }

/-- `mgrOneLeftFloat` with a left float pushed past a break. -/
def mgrPushedLeft : nsFloatManager :=
  { mgrOneLeftFloat with mPushedLeftFloatPastBreak := true }

/-- A sample shape strategy with constant edges, for exercising the
shape-clipping combinators. -/
def sampleShape : ShapeInfo :=
  { lineLeft := fun _ _ => 30, lineRight := fun _ _ => 170,
    bStart := 10, bEnd := 90, isEmpty := false }

/-- `sampleFloat` equipped with `sampleShape`. -/
def sampleShapedFloat : FloatInfo :=
  { sampleFloat with mShapeInfo := some sampleShape }

/-! ### C1: shape influence is clipped to the float's margin box -/

/-- Claim C1: for a registered float with a shape strategy, the effective
edges a `ShapeOutside` query uses are the shape's values clipped to the
margin box — `LineLeft = max(rect.lineLeft, shape.LineLeft(band))`,
`LineRight = min(rect.lineRight, shape.LineRight(band))`,
`BStart = max(rect.bStart, shape.BStart)`, `BEnd = min(rect.bEnd,
shape.BEnd)` — and hence never lie outside the margin box. -/
theorem C1_shape_clipped_to_margin_box (fi : FloatInfo) (s : ShapeInfo)
    (hs : fi.mShapeInfo = some s) (aBStart aBEnd : Int) :
    fi.LineLeft ShapeType.ShapeOutside aBStart aBEnd
        = max fi.mRect.x (s.lineLeft aBStart aBEnd) ∧
    fi.LineRight ShapeType.ShapeOutside aBStart aBEnd
        = min fi.mRect.XMost (s.lineRight aBStart aBEnd) ∧
    fi.BStart ShapeType.ShapeOutside = max fi.mRect.y s.bStart ∧
    fi.BEnd ShapeType.ShapeOutside = min fi.mRect.YMost s.bEnd ∧
    fi.mRect.x ≤ fi.LineLeft ShapeType.ShapeOutside aBStart aBEnd ∧
    fi.LineRight ShapeType.ShapeOutside aBStart aBEnd ≤ fi.mRect.XMost ∧
    fi.mRect.y ≤ fi.BStart ShapeType.ShapeOutside ∧
    fi.BEnd ShapeType.ShapeOutside ≤ fi.mRect.YMost := by
  simp [FloatInfo.LineLeft, FloatInfo.LineRight, FloatInfo.BStart,
    FloatInfo.BEnd, hs, FloatInfo.rectLineLeft, FloatInfo.rectLineRight,
    FloatInfo.rectBStart, FloatInfo.rectBEnd]

/-- Witness for C1 at a concrete shaped float and band. -/
theorem C1_witness :
    sampleShapedFloat.mRect.x ≤
      sampleShapedFloat.LineLeft ShapeType.ShapeOutside 0 50 ∧
    sampleShapedFloat.LineRight ShapeType.ShapeOutside 0 50 ≤
      sampleShapedFloat.mRect.XMost :=
  ⟨(C1_shape_clipped_to_margin_box sampleShapedFloat sampleShape rfl 0 50).2.2.2.2.1,
   (C1_shape_clipped_to_margin_box sampleShapedFloat sampleShape rfl 0 50).2.2.2.2.2.1⟩

/-! ### C5 / C9: ClearFloats -/

/-- The condition of `ClearFloats`'s sentinel branch: pushed/split floats on
a cleared side and `DONT_CLEAR_PUSHED_FLOATS` absent. -/
def clearSentinelApplies (m : nsFloatManager) (aBreakType : StyleClear)
    (aFlags : Nat) : Prop :=
  aFlags &&& DONT_CLEAR_PUSHED_FLOATS = 0 ∧ m.ClearContinues aBreakType

/-- The side summary `ClearFloats` draws from the tail entry for each break
type (the claim describes `Left`, `Right` and `Both`). -/
def clearSideBEnd (tail : FloatInfo) : StyleClear → Int
  | StyleClear.Left => tail.mLeftBEnd
  | StyleClear.Right => tail.mRightBEnd
  | StyleClear.Both => max tail.mLeftBEnd tail.mRightBEnd
  | StyleClear.None => nscoord_MIN

/-- Counterexample to claim C5 as stated: the claim's "returns the maximum
coordinate sentinel exactly when …" is an iff, but with a non-empty registry
and no break flags set, `ClearFloats` at `bCoord = nscoord_MAX` also returns
`nscoord_MAX` from the ordinary clearance formula. -/
theorem C5_counterexample :
    ¬ clearSentinelApplies mgrOneLeftFloat StyleClear.Left 0 ∧
    mgrOneLeftFloat.ClearFloats nscoord_MAX StyleClear.Left 0 = nscoord_MAX := by
  constructor
  · intro h
    exact absurd h.2 (by decide)
  · decide

/-- Claim C5 (amended): `ClearFloats` returns the sentinel `nscoord_MAX`
when the pushed/split break-flag condition applies and
`DONT_CLEAR_PUSHED_FLOATS` is absent; when that condition does not apply and
the registry is non-empty, it returns `max(bCoord + origin.blockStart,
sideBEnd) - origin.blockStart` with `sideBEnd` the tail's `leftBEnd`,
`rightBEnd`, or the max of both according to the break type (a value that
can itself equal the sentinel at extreme coordinates, which is the sole
amendment to the claim's "exactly when"). -/
theorem C5_clearFloats_branches (m : nsFloatManager) (aBCoord : Int)
    (aBreakType : StyleClear) (aFlags : Nat) :
    (clearSentinelApplies m aBreakType aFlags →
      m.ClearFloats aBCoord aBreakType aFlags = nscoord_MAX) ∧
    (¬ clearSentinelApplies m aBreakType aFlags →
      ∀ tail, m.mFloats.getLast? = some tail → aBreakType ≠ StyleClear.None →
        m.ClearFloats aBCoord aBreakType aFlags =
          max (aBCoord + m.mBlockStart) (clearSideBEnd tail aBreakType)
            - m.mBlockStart) := by
  constructor
  · intro h
    unfold clearSentinelApplies at h
    unfold nsFloatManager.ClearFloats
    rw [if_pos h]
  · intro h tail htail hbt
    unfold clearSentinelApplies at h
    have hne : m.mFloats ≠ [] := by
      intro hnil
      rw [hnil] at htail
      exact Option.noConfusion htail
    have hhas : m.HasAnyFloats = true := by
      unfold nsFloatManager.HasAnyFloats
      cases hm : m.mFloats with
      | nil => exact absurd hm hne
      | cons a l => simp [List.isEmpty]
    unfold nsFloatManager.ClearFloats
    rw [if_neg h]
    rw [hhas]
    simp only [Bool.not_true, if_neg (by simp : ¬ (false = true)), htail]
    cases aBreakType with
    | None => exact absurd rfl hbt
    | Left => simp [clearSideBEnd]
    | Right => simp [clearSideBEnd]
    | Both => simp [clearSideBEnd, max_assoc]

/-- Witness for C5 at concrete inputs: the sentinel branch with a pushed
left float, and the clearance formula with it absent. -/
theorem C5_witness :
    mgrPushedLeft.ClearFloats 5 StyleClear.Left 0 = nscoord_MAX ∧
    mgrOneLeftFloat.ClearFloats 5 StyleClear.Left 0 =
      max (5 + mgrOneLeftFloat.mBlockStart)
        (clearSideBEnd sampleFloat StyleClear.Left) - mgrOneLeftFloat.mBlockStart :=
  ⟨(C5_clearFloats_branches mgrPushedLeft 5 StyleClear.Left 0).1
      (by constructor <;> decide),
   (C5_clearFloats_branches mgrOneLeftFloat 5 StyleClear.Left 0).2
      (by intro h; exact absurd h.2 (by decide)) sampleFloat rfl (by decide)⟩

/-- Claim C9: with an empty float registry and the sentinel case not
applying, `ClearFloats` returns `bCoord` unchanged for every break type. -/
theorem C9_clearFloats_empty_registry (m : nsFloatManager) (aBCoord : Int)
    (aBreakType : StyleClear) (aFlags : Nat)
    (hempty : m.mFloats = [])
    (hsent : ¬ clearSentinelApplies m aBreakType aFlags) :
    m.ClearFloats aBCoord aBreakType aFlags = aBCoord := by
  unfold clearSentinelApplies at hsent
  unfold nsFloatManager.ClearFloats
  rw [if_neg hsent]
  simp [nsFloatManager.HasAnyFloats, hempty]

/-- Witness for C9: a fresh manager clears to the requested coordinate. -/
theorem C9_witness : nsFloatManager.new.ClearFloats 42 StyleClear.Both 0 = 42 :=
  C9_clearFloats_empty_registry nsFloatManager.new 42 StyleClear.Both 0 rfl
    (by intro h; exact absurd h.2 (by decide))

/-! ### C4: PushState / PopState round trip -/

/-- The operations allowed between push and pop only append to the float
registry and to the damage sink. -/
theorem runOps_inner_appends (ops : List ManagerOp) :
    ∀ m : nsFloatManager, (∀ op ∈ ops, isInnerOp op = true) →
      ∃ ext dt, (runOps m ops).mFloats = m.mFloats ++ ext ∧
        (runOps m ops).mFloatDamage = m.mFloatDamage ++ dt := by
  induction ops with
  | nil =>
    intro m _
    exact ⟨[], [], by simp [runOps], by simp [runOps]⟩
  | cons op ops ih =>
    intro m hops
    have hop : isInnerOp op = true := hops op (List.mem_cons_self op ops)
    have hops' : ∀ o ∈ ops, isInnerOp o = true :=
      fun o ho => hops o (List.mem_cons_of_mem op ho)
    obtain ⟨ext, dt, hf, hd⟩ := ih (applyOp m op) hops'
    have hstep : ∃ e1 d1, (applyOp m op).mFloats = m.mFloats ++ e1 ∧
        (applyOp m op).mFloatDamage = m.mFloatDamage ++ d1 := by
      cases op with
      | addFloat f fs r sh =>
        exact ⟨_, [], rfl, by simp [applyOp, nsFloatManager.AddFloat]⟩
      | pushState => exact ⟨[], [], by simp [applyOp], by simp [applyOp]⟩
      | translate a b =>
        exact ⟨[], [], by simp [applyOp, nsFloatManager.Translate],
          by simp [applyOp, nsFloatManager.Translate]⟩
      | setPushedLeftFloatPastBreak b =>
        exact ⟨[], [], by simp [applyOp], by simp [applyOp]⟩
      | setPushedRightFloatPastBreak b =>
        exact ⟨[], [], by simp [applyOp], by simp [applyOp]⟩
      | setSplitLeftFloatAcrossBreak b =>
        exact ⟨[], [], by simp [applyOp], by simp [applyOp]⟩
      | setSplitRightFloatAcrossBreak b =>
        exact ⟨[], [], by simp [applyOp], by simp [applyOp]⟩
      | includeInDamage d => exact ⟨[], [d], by simp [applyOp], by simp [applyOp]⟩
      | removeTrailingRegions l => exact absurd hop (by simp [isInnerOp])
      | popState s => exact absurd hop (by simp [isInnerOp])
    obtain ⟨e1, d1, hf1, hd1⟩ := hstep
    refine ⟨e1 ++ ext, d1 ++ dt, ?_, ?_⟩
    · rw [show runOps m (op :: ops) = runOps (applyOp m op) ops from rfl, hf,
        hf1, List.append_assoc]
    · rw [show runOps m (op :: ops) = runOps (applyOp m op) ops from rfl, hd,
        hd1, List.append_assoc]

/-- Claim C4: after `PushState`, any sequence of float additions and
origin/flag changes, and `PopState` of the captured state, the origin, the
four break flags and the float count equal the captured values (later floats
are discarded by truncation), while the damage sink is not restored: it
keeps everything accumulated since the push. -/
theorem C4_push_pop_round_trip (m0 : nsFloatManager) (ops : List ManagerOp)
    (hops : ∀ op ∈ ops, isInnerOp op = true) :
    (nsFloatManager.PopState (runOps m0 ops) m0.PushState).mLineLeft = m0.mLineLeft ∧
    (nsFloatManager.PopState (runOps m0 ops) m0.PushState).mBlockStart = m0.mBlockStart ∧
    (nsFloatManager.PopState (runOps m0 ops) m0.PushState).mPushedLeftFloatPastBreak
        = m0.mPushedLeftFloatPastBreak ∧
    (nsFloatManager.PopState (runOps m0 ops) m0.PushState).mPushedRightFloatPastBreak
        = m0.mPushedRightFloatPastBreak ∧
    (nsFloatManager.PopState (runOps m0 ops) m0.PushState).mSplitLeftFloatAcrossBreak
        = m0.mSplitLeftFloatAcrossBreak ∧
    (nsFloatManager.PopState (runOps m0 ops) m0.PushState).mSplitRightFloatAcrossBreak
        = m0.mSplitRightFloatAcrossBreak ∧
    (nsFloatManager.PopState (runOps m0 ops) m0.PushState).mFloats.length
        = m0.mFloats.length ∧
    (nsFloatManager.PopState (runOps m0 ops) m0.PushState).mFloatDamage
        = (runOps m0 ops).mFloatDamage ∧
    ∃ t, (nsFloatManager.PopState (runOps m0 ops) m0.PushState).mFloatDamage
        = m0.mFloatDamage ++ t := by
  obtain ⟨ext, dt, hf, hd⟩ := runOps_inner_appends ops m0 hops
  refine ⟨rfl, rfl, rfl, rfl, rfl, rfl, ?_, rfl, ⟨dt, hd⟩⟩
  show ((runOps m0 ops).mFloats.take m0.PushState.mFloatInfoCount).length
      = m0.mFloats.length
  rw [hf]
  show ((m0.mFloats ++ ext).take m0.mFloats.length).length = m0.mFloats.length
  rw [List.take_left]

/-- Witness for C4 at a concrete manager and inner-operation sequence. -/
theorem C4_witness :
    (nsFloatManager.PopState
      (runOps mgrOneLeftFloat
        [ManagerOp.addFloat 2 StyleFloat.Right ⟨800, 0, 200, 50⟩ none,
         ManagerOp.translate 5 7,
         ManagerOp.includeInDamage 3])
      mgrOneLeftFloat.PushState).mFloats.length
        = mgrOneLeftFloat.mFloats.length :=
  (C4_push_pop_round_trip mgrOneLeftFloat
    [ManagerOp.addFloat 2 StyleFloat.Right ⟨800, 0, 200, 50⟩ none,
     ManagerOp.translate 5 7,
     ManagerOp.includeInDamage 3]
    (by intro op hop; fin_cases hop <;> rfl)).2.2.2.2.2.2.1

/-! ### C3: cumulative side summaries are monotone -/

/-- Adjacent registry entries have non-decreasing cumulative side block
ends. -/
def bEndsMonotone (a b : FloatInfo) : Prop :=
  a.mLeftBEnd ≤ b.mLeftBEnd ∧ a.mRightBEnd ≤ b.mRightBEnd

/-- `AddFloat` preserves monotonicity of the cumulative summaries: the new
entry copies the previous tail's values and only raises its own side. -/
theorem addFloat_preserves_monotone (m : nsFloatManager) (f : Nat)
    (fs : StyleFloat) (r : nsRect) (sh : Option ShapeInfo)
    (h : List.Chain' bEndsMonotone m.mFloats) :
    List.Chain' bEndsMonotone (m.AddFloat f fs r sh).mFloats := by
  unfold nsFloatManager.AddFloat
  simp only []
  rw [List.chain'_append]
  refine ⟨h, List.chain'_singleton _, ?_⟩
  intro x hx y hy
  simp only [List.head?_cons, Option.mem_def, Option.some.injEq] at hy
  have hlast : m.mFloats.getLast? = some x := hx
  rw [hlast] at hy
  cases fs with
  | Left =>
    subst hy
    constructor
    · simp only []
      split <;> omega
    · simp only []
      omega
  | Right =>
    subst hy
    constructor
    · simp only []
      omega
    · simp only []
      split <;> omega

/-- Every manager operation preserves monotonicity of the cumulative
summaries (truncations keep a prefix; `AddFloat` extends monotonically). -/
theorem applyOp_preserves_monotone (m : nsFloatManager) (op : ManagerOp)
    (h : List.Chain' bEndsMonotone m.mFloats) :
    List.Chain' bEndsMonotone (applyOp m op).mFloats := by
  cases op with
  | addFloat f fs r sh => exact addFloat_preserves_monotone m f fs r sh h
  | removeTrailingRegions l => exact h.take _
  | popState s => exact h.take _
  | pushState => exact h
  | translate a b => exact h
  | setPushedLeftFloatPastBreak b => exact h
  | setPushedRightFloatPastBreak b => exact h
  | setSplitLeftFloatAcrossBreak b => exact h
  | setSplitRightFloatAcrossBreak b => exact h
  | includeInDamage d => exact h

/-- Monotonicity of the cumulative summaries holds in every manager state
reachable by operation sequences from a given state satisfying it. -/
theorem runOps_preserves_monotone (ops : List ManagerOp) :
    ∀ m : nsFloatManager, List.Chain' bEndsMonotone m.mFloats →
      List.Chain' bEndsMonotone (runOps m ops).mFloats := by
  induction ops with
  | nil => intro m h; exact h
  | cons op ops ih =>
    intro m h
    exact ih (applyOp m op) (applyOp_preserves_monotone m op h)

/-- Claim C3: in every manager state reachable from a fresh manager by any
operation sequence (`AddFloat`, `RemoveTrailingRegions`, `PushState`,
`PopState`, origin/flag changes), the cumulative summaries are monotone:
`floats[i].leftBEnd ≥ floats[i-1].leftBEnd` and likewise on the right, the
invariant `AddFloat` establishes by copying the previous tail's values (or
the `nscoord_MIN` sentinel) and raising only its own side's entry. -/
theorem C3_cumulative_summaries_monotone (ops : List ManagerOp) (i : Nat)
    (h : i + 1 < (runOps nsFloatManager.new ops).mFloats.length) :
    ((runOps nsFloatManager.new ops).mFloats.get
        ⟨i, Nat.lt_of_succ_lt h⟩).mLeftBEnd ≤
      ((runOps nsFloatManager.new ops).mFloats.get ⟨i + 1, h⟩).mLeftBEnd ∧
    ((runOps nsFloatManager.new ops).mFloats.get
        ⟨i, Nat.lt_of_succ_lt h⟩).mRightBEnd ≤
      ((runOps nsFloatManager.new ops).mFloats.get ⟨i + 1, h⟩).mRightBEnd := by
  have hmono : List.Chain' bEndsMonotone (runOps nsFloatManager.new ops).mFloats :=
    runOps_preserves_monotone ops nsFloatManager.new (by
      show List.Chain' bEndsMonotone []
      exact List.chain'_nil)
  exact List.chain'_iff_get.mp hmono i (by omega)

/-- Witness for C3: two concrete additions, checked at index 0. -/
theorem C3_witness :
    ((runOps nsFloatManager.new
        [ManagerOp.addFloat 1 StyleFloat.Left ⟨0, 0, 200, 100⟩ none,
         ManagerOp.addFloat 2 StyleFloat.Right ⟨800, 0, 200, 50⟩ none]).mFloats.get
      ⟨0, by decide⟩).mLeftBEnd ≤
    ((runOps nsFloatManager.new
        [ManagerOp.addFloat 1 StyleFloat.Left ⟨0, 0, 200, 100⟩ none,
         ManagerOp.addFloat 2 StyleFloat.Right ⟨800, 0, 200, 50⟩ none]).mFloats.get
      ⟨1, by decide⟩).mLeftBEnd :=
  (C3_cumulative_summaries_monotone
    [ManagerOp.addFloat 1 StyleFloat.Left ⟨0, 0, 200, 100⟩ none,
     ManagerOp.addFloat 2 StyleFloat.Right ⟨800, 0, 200, 50⟩ none]
    0 (by decide)).1

/-! ### C7: polygon emptiness and block extent -/

/-- The running minimum in the polygon constructor never exceeds its seed. -/
theorem foldl_min_y_le_init (l : List nsPoint) :
    ∀ a : Int, l.foldl (fun acc v => min acc v.y) a ≤ a := by
  induction l with
  | nil => intro a; simp
  | cons v l ih =>
    intro a
    exact le_trans (ih (min a v.y)) (min_le_left _ _)

/-- The running minimum is a lower bound of every scanned vertex's block
coordinate. -/
theorem foldl_min_y_le_mem (l : List nsPoint) :
    ∀ (a : Int) (v : nsPoint), v ∈ l →
      l.foldl (fun acc v => min acc v.y) a ≤ v.y := by
  induction l with
  | nil => intro a v hv; exact absurd hv (List.not_mem_nil v)
  | cons u l ih =>
    intro a v hv
    rcases List.mem_cons.mp hv with h | h
    · subst h
      exact le_trans (foldl_min_y_le_init l (min a v.y)) (min_le_right _ _)
    · exact ih (min a u.y) v h

/-- The running minimum is either the seed or some scanned vertex's block
coordinate. -/
theorem foldl_min_y_attained (l : List nsPoint) :
    ∀ a : Int, l.foldl (fun acc v => min acc v.y) a = a ∨
      ∃ v ∈ l, l.foldl (fun acc v => min acc v.y) a = v.y := by
  induction l with
  | nil => intro a; exact Or.inl rfl
  | cons u l ih =>
    intro a
    rcases ih (min a u.y) with h | ⟨v, hv, hh⟩
    · rcases le_or_lt a u.y with hau | hau
      · exact Or.inl (by rw [List.foldl_cons, h, min_eq_left hau])
      · exact Or.inr ⟨u, List.mem_cons_self u l,
          by rw [List.foldl_cons, h, min_eq_right (le_of_lt hau)]⟩
    · exact Or.inr ⟨v, List.mem_cons_of_mem u hv, hh⟩

/-- The running maximum in the polygon constructor never falls below its
seed. -/
theorem foldl_max_y_ge_init (l : List nsPoint) :
    ∀ a : Int, a ≤ l.foldl (fun acc v => max acc v.y) a := by
  induction l with
  | nil => intro a; simp
  | cons v l ih =>
    intro a
    exact le_trans (le_max_left _ _) (ih (max a v.y))

/-- The running maximum is an upper bound of every scanned vertex's block
coordinate. -/
theorem foldl_max_y_ge_mem (l : List nsPoint) :
    ∀ (a : Int) (v : nsPoint), v ∈ l →
      v.y ≤ l.foldl (fun acc v => max acc v.y) a := by
  induction l with
  | nil => intro a v hv; exact absurd hv (List.not_mem_nil v)
  | cons u l ih =>
    intro a v hv
    rcases List.mem_cons.mp hv with h | h
    · subst h
      exact le_trans (le_max_right _ _) (foldl_max_y_ge_init l (max a v.y))
    · exact ih (max a u.y) v h

/-- The running maximum is either the seed or some scanned vertex's block
coordinate. -/
theorem foldl_max_y_attained (l : List nsPoint) :
    ∀ a : Int, l.foldl (fun acc v => max acc v.y) a = a ∨
      ∃ v ∈ l, l.foldl (fun acc v => max acc v.y) a = v.y := by
  induction l with
  | nil => intro a; exact Or.inl rfl
  | cons u l ih =>
    intro a
    rcases ih (max a u.y) with h | ⟨v, hv, hh⟩
    · rcases le_or_lt u.y a with hau | hau
      · exact Or.inl (by rw [List.foldl_cons, h, max_eq_left hau])
      · exact Or.inr ⟨u, List.mem_cons_self u l,
          by rw [List.foldl_cons, h, max_eq_right (le_of_lt hau)]⟩
    · exact Or.inr ⟨v, List.mem_cons_of_mem u hv, hh⟩

/-- Claim C7: a constructed polygon reports `IsEmpty = true` exactly when it
has fewer than three vertices or every vertex is collinear with the first
two (zero determinant test); such an empty polygon is skipped by the
`GetFlowArea` walk (the step leaves the band state untouched); and a
non-empty polygon's block extent is the minimum and maximum of the vertices'
block coordinates. -/
theorem C7_polygon_empty_and_extent (vs : List nsPoint)
    (hbound : ∀ v ∈ vs, nscoord_MIN ≤ v.y ∧ v.y ≤ nscoord_MAX) :
    ((PolygonShapeInfo.construct vs).mEmpty = true ↔
      (vs.length < 3 ∨ ∀ p ∈ vs.drop 2,
        Determinant (p.sub (vs.getD 0 ⟨0, 0⟩))
          ((vs.getD 1 ⟨0, 0⟩).sub (vs.getD 0 ⟨0, 0⟩)) = 0)) ∧
    (∀ (bt : BandInfoType) (bs : Int) (fi : FloatInfo) (st : FlowState),
      fi.mShapeInfo = some (PolygonShapeInfo.construct vs).toShapeInfo →
      (PolygonShapeInfo.construct vs).mEmpty = true →
      flowStep bt ShapeType.ShapeOutside bs fi st = st) ∧
    ((PolygonShapeInfo.construct vs).mEmpty = false →
      (∀ v ∈ vs, (PolygonShapeInfo.construct vs).mBStart ≤ v.y ∧
        v.y ≤ (PolygonShapeInfo.construct vs).mBEnd) ∧
      (∃ v ∈ vs, (PolygonShapeInfo.construct vs).mBStart = v.y) ∧
      (∃ v ∈ vs, (PolygonShapeInfo.construct vs).mBEnd = v.y)) := by
  refine ⟨?_, ?_, ?_⟩
  · -- emptiness characterization
    match vs with
    | [] => simp [PolygonShapeInfo.construct]
    | [p0] => simp [PolygonShapeInfo.construct]
    | [p0, p1] => simp [PolygonShapeInfo.construct]
    | p0 :: p1 :: p2 :: rest =>
      by_cases hcol :
          (p2 :: rest).all (fun p => Determinant (p.sub p0) (p1.sub p0) == 0) = true
      · have hE : (PolygonShapeInfo.construct (p0 :: p1 :: p2 :: rest)).mEmpty = true := by
          simp [PolygonShapeInfo.construct, hcol]
        rw [hE]
        simp only [List.all_eq_true, beq_iff_eq] at hcol
        constructor
        · intro _
          refine Or.inr ?_
          intro p hp
          exact hcol p hp
        · intro _
          rfl
      · have hE : (PolygonShapeInfo.construct (p0 :: p1 :: p2 :: rest)).mEmpty = false := by
          simp [PolygonShapeInfo.construct, hcol]
        rw [hE]
        simp only [List.all_eq_true, beq_iff_eq] at hcol
        push_neg at hcol
        obtain ⟨p, hp, hdet⟩ := hcol
        constructor
        · intro hfalse
          exact Bool.noConfusion hfalse
        · intro hor
          rcases hor with hlen | hall
          · have h3 : (p0 :: p1 :: p2 :: rest).length = rest.length + 3 := by
              simp
            omega
          · exact absurd (hall p hp) hdet
  · -- empty polygons are skipped by the query walk
    intro bt bs fi st hshape hempty
    have hie : fi.IsEmpty ShapeType.ShapeOutside = true := by
      unfold FloatInfo.IsEmpty
      rw [hshape]
      exact hempty
    unfold flowStep
    rw [hie]
    simp
  · -- block extent of a non-empty polygon
    intro hne
    match vs, hbound with
    | [], hbound => simp [PolygonShapeInfo.construct] at hne
    | [p0], hbound => simp [PolygonShapeInfo.construct] at hne
    | [p0, p1], hbound => simp [PolygonShapeInfo.construct] at hne
    | p0 :: p1 :: p2 :: rest, hbound =>
      by_cases hcol :
          (p2 :: rest).all (fun p => Determinant (p.sub p0) (p1.sub p0) == 0) = true
      · simp [PolygonShapeInfo.construct, hcol] at hne
      · have hBStart : (PolygonShapeInfo.construct (p0 :: p1 :: p2 :: rest)).mBStart =
            (p0 :: p1 :: p2 :: rest).foldl (fun acc v => min acc v.y) nscoord_MAX := by
          simp [PolygonShapeInfo.construct, hcol]
        have hBEnd : (PolygonShapeInfo.construct (p0 :: p1 :: p2 :: rest)).mBEnd =
            (p0 :: p1 :: p2 :: rest).foldl (fun acc v => max acc v.y) nscoord_MIN := by
          simp [PolygonShapeInfo.construct, hcol]
        rw [hBStart, hBEnd]
        refine ⟨?_, ?_, ?_⟩
        · intro v hv
          exact ⟨foldl_min_y_le_mem _ nscoord_MAX v hv,
            foldl_max_y_ge_mem _ nscoord_MIN v hv⟩
        · rcases foldl_min_y_attained (p0 :: p1 :: p2 :: rest) nscoord_MAX with h | ⟨v, hv, hh⟩
          · refine ⟨p0, by simp, ?_⟩
            have h1 := foldl_min_y_le_mem (p0 :: p1 :: p2 :: rest) nscoord_MAX p0 (by simp)
            have h2 := (hbound p0 (by simp)).2
            omega
          · exact ⟨v, hv, hh⟩
        · rcases foldl_max_y_attained (p0 :: p1 :: p2 :: rest) nscoord_MIN with h | ⟨v, hv, hh⟩
          · refine ⟨p0, by simp, ?_⟩
            have h1 := foldl_max_y_ge_mem (p0 :: p1 :: p2 :: rest) nscoord_MIN p0 (by simp)
            have h2 := (hbound p0 (by simp)).1
            omega
          · exact ⟨v, hv, hh⟩

/-- A concrete triangle for the C7 witness. -/
def sampleTriangle : List nsPoint := [⟨0, 0⟩, ⟨200, 0⟩, ⟨0, 200⟩]

/-- Witness for C7: the triangle is non-empty and its block extent is
attained at its vertices. -/
theorem C7_witness :
    ∃ v ∈ sampleTriangle,
      (PolygonShapeInfo.construct sampleTriangle).mBStart = v.y :=
  ((C7_polygon_empty_and_extent sampleTriangle
      (by intro v hv; fin_cases hv <;> constructor <;> decide)).2.2
    (by decide)).2.1

/-! ### C10: all intercept divisions are guarded -/

/-- An `Option`-lifted fold equals the plain fold when the step functions
agree on `some` states. -/
theorem foldl_option_lift {α : Type} (f : Option Int → α → Option Int)
    (g : Int → α → Int) (hfg : ∀ x i, f (some x) i = some (g x i)) :
    ∀ (l : List α) (x : Int), l.foldl f (some x) = some (l.foldl g x) := by
  intro l
  induction l with
  | nil => intro x; rfl
  | cons i l ih =>
    intro x
    rw [List.foldl_cons, List.foldl_cons, hfg x i, ih (g x i)]

/-- One edge of the polygon walk: the guard-checked intercepts succeed and
agree with the unchecked ones, because the skip test rules out exactly the
cases in which a precondition could fail. -/
theorem interceptBody_checked (aBStart aBEnd x : Int) (sv bv : nsPoint)
    (cmp : Int → Int → Int) :
    (if aBStart ≥ bv.y ∨ aBEnd ≤ sv.y ∨ sv.y = bv.y then some x
     else
       (if aBStart ≤ sv.y then some sv.x
        else PolygonShapeInfo.XInterceptAtYChecked aBStart sv bv).bind fun a =>
       (if aBEnd ≥ bv.y then some bv.x
        else PolygonShapeInfo.XInterceptAtYChecked aBEnd sv bv).map fun b =>
         cmp (cmp x a) b)
    = some (if aBStart ≥ bv.y ∨ aBEnd ≤ sv.y ∨ sv.y = bv.y then x
       else
         cmp (cmp x (if aBStart ≤ sv.y then sv.x
            else PolygonShapeInfo.XInterceptAtY aBStart sv bv))
           (if aBEnd ≥ bv.y then bv.x
            else PolygonShapeInfo.XInterceptAtY aBEnd sv bv)) := by
  by_cases hskip : aBStart ≥ bv.y ∨ aBEnd ≤ sv.y ∨ sv.y = bv.y
  · rw [if_pos hskip, if_pos hskip]
  · rw [if_neg hskip, if_neg hskip]
    push_neg at hskip
    obtain ⟨h1, h2, h3⟩ := hskip
    have hg1 : ¬ aBStart ≤ sv.y →
        PolygonShapeInfo.XInterceptAtYChecked aBStart sv bv =
          some (PolygonShapeInfo.XInterceptAtY aBStart sv bv) := by
      intro hyp
      unfold PolygonShapeInfo.XInterceptAtYChecked
      rw [if_pos ⟨le_of_lt (lt_of_not_le hyp), le_of_lt h1, h3⟩]
    have hg2 : ¬ aBEnd ≥ bv.y →
        PolygonShapeInfo.XInterceptAtYChecked aBEnd sv bv =
          some (PolygonShapeInfo.XInterceptAtY aBEnd sv bv) := by
      intro hyp
      unfold PolygonShapeInfo.XInterceptAtYChecked
      rw [if_pos ⟨le_of_lt h2, le_of_lt (lt_of_not_le hyp), h3⟩]
    by_cases hs : aBStart ≤ sv.y <;> by_cases he : aBEnd ≥ bv.y <;>
      simp [hs, he, hg1, hg2]

/-- Claim C10: every division in the shape intercept computations is
guarded.  `ComputeEllipseLineInterceptDiff` calls the ellipse
`XInterceptAtY` only under a branch with the corner's block-axis radius
strictly positive, and the polygon's `ComputeLineIntercept` calls its
`XInterceptAtY` only for non-horizontal edges whose block span strictly
contains the query coordinate; hence the guard-checked versions (which
return `none` on any precondition violation) always return `some` and agree
with the total embeddings. -/
theorem C10_intercept_divisions_guarded :
    (∀ aShapeBoxBStart aShapeBoxBEnd aBStartCornerRadiusL aBStartCornerRadiusB
        aBEndCornerRadiusL aBEndCornerRadiusB aBandBStart aBandBEnd : Int,
      ShapeInfo.ComputeEllipseLineInterceptDiffChecked aShapeBoxBStart
          aShapeBoxBEnd aBStartCornerRadiusL aBStartCornerRadiusB
          aBEndCornerRadiusL aBEndCornerRadiusB aBandBStart aBandBEnd
        = some (ShapeInfo.ComputeEllipseLineInterceptDiff aShapeBoxBStart
          aShapeBoxBEnd aBStartCornerRadiusL aBStartCornerRadiusB
          aBEndCornerRadiusL aBEndCornerRadiusB aBandBStart aBandBEnd)) ∧
    (∀ (p : PolygonShapeInfo) (aBStart aBEnd : Int) (cmp : Int → Int → Int)
        (init : Int),
      p.ComputeLineInterceptChecked aBStart aBEnd cmp init
        = some (p.ComputeLineIntercept aBStart aBEnd cmp init)) := by
  constructor
  · intro sbs sbe rl rb el eb bbs bbe
    unfold ShapeInfo.ComputeEllipseLineInterceptDiffChecked
      ShapeInfo.ComputeEllipseLineInterceptDiff
    by_cases h1 : rb > 0 ∧ bbe ≥ sbs ∧ bbe ≤ sbs + rb
    · rw [if_pos h1, if_pos h1]
      unfold ShapeInfo.XInterceptAtYChecked
      simp only [if_pos h1.1, Option.map_some']
    · rw [if_neg h1, if_neg h1]
      by_cases h2 : eb > 0 ∧ bbs ≥ sbe - eb ∧ bbs ≤ sbe
      · rw [if_pos h2, if_pos h2]
        unfold ShapeInfo.XInterceptAtYChecked
        simp only [if_pos h2.1, Option.map_some']
      · rw [if_neg h2, if_neg h2]
  · intro p aBStart aBEnd cmp init
    unfold PolygonShapeInfo.ComputeLineInterceptChecked
      PolygonShapeInfo.ComputeLineIntercept
    exact foldl_option_lift _ _
      (fun x i => interceptBody_checked aBStart aBEnd x _ _ cmp)
      (List.range p.mVertices.length) init

/-! ### Loop invariants of the GetFlowArea walk -/

/-- The narrowing step never lowers `lineLeft`. -/
theorem flowStepNarrow_lineLeft_le (bt : BandInfoType) (sh : ShapeType)
    (bs : Int) (fi : FloatInfo) (st : FlowState) :
    st.lineLeft ≤ (flowStepNarrow bt sh bs fi st).lineLeft := by
  unfold flowStepNarrow
  split
  · split
    next h => exact le_of_lt h
    · exact le_rfl
  · split <;> exact le_rfl

/-- The narrowing step never raises `lineRight`. -/
theorem flowStepNarrow_lineRight_le (bt : BandInfoType) (sh : ShapeType)
    (bs : Int) (fi : FloatInfo) (st : FlowState) :
    (flowStepNarrow bt sh bs fi st).lineRight ≤ st.lineRight := by
  unfold flowStepNarrow
  split
  · split <;> exact le_rfl
  · split
    next h => exact le_of_lt h
    · exact le_rfl

/-- The narrowing step leaves `blockEnd` unchanged. -/
theorem flowStepNarrow_blockEnd (bt : BandInfoType) (sh : ShapeType)
    (bs : Int) (fi : FloatInfo) (st : FlowState) :
    (flowStepNarrow bt sh bs fi st).blockEnd = st.blockEnd := by
  unfold flowStepNarrow
  split <;> split <;> rfl

/-- The loop body never lowers `lineLeft`. -/
theorem flowStep_lineLeft_le (bt : BandInfoType) (sh : ShapeType)
    (bs : Int) (fi : FloatInfo) (st : FlowState) :
    st.lineLeft ≤ (flowStep bt sh bs fi st).lineLeft := by
  unfold flowStep
  split
  · exact le_rfl
  split
  · split <;> exact le_rfl
  split
  · split
    · exact flowStepNarrow_lineLeft_le bt sh bs fi st
    · exact flowStepNarrow_lineLeft_le bt sh bs fi st
  · exact le_rfl

/-- The loop body never raises `lineRight`. -/
theorem flowStep_lineRight_le (bt : BandInfoType) (sh : ShapeType)
    (bs : Int) (fi : FloatInfo) (st : FlowState) :
    (flowStep bt sh bs fi st).lineRight ≤ st.lineRight := by
  unfold flowStep
  split
  · exact le_rfl
  split
  · split <;> exact le_rfl
  split
  · split
    · exact flowStepNarrow_lineRight_le bt sh bs fi st
    · exact flowStepNarrow_lineRight_le bt sh bs fi st
  · exact le_rfl

/-- Under `WidthWithinHeight` the loop body leaves `blockEnd` unchanged
(only `BandFromPoint` contracts the band). -/
theorem flowStep_wwh_blockEnd (sh : ShapeType) (bs : Int) (fi : FloatInfo)
    (st : FlowState) :
    (flowStep BandInfoType.WidthWithinHeight sh bs fi st).blockEnd
      = st.blockEnd := by
  unfold flowStep
  split
  · rfl
  split
  next h => exact absurd h.2 (by decide)
  split
  · split
    next h => exact absurd h.2 (by decide)
    · exact flowStepNarrow_blockEnd _ sh bs fi st
  · rfl

/-- The loop body keeps `blockEnd` at the sentinel or at/above the band
start. -/
theorem flowStep_blockEnd_inv (bt : BandInfoType) (sh : ShapeType)
    (bs : Int) (fi : FloatInfo) (st : FlowState)
    (h : st.blockEnd = nscoord_MAX ∨ bs ≤ st.blockEnd) :
    (flowStep bt sh bs fi st).blockEnd = nscoord_MAX ∨
      bs ≤ (flowStep bt sh bs fi st).blockEnd := by
  unfold flowStep
  split
  · exact h
  split
  next hc =>
    split
    · exact Or.inr (le_of_lt hc.1)
    · exact h
  split
  next hband =>
    split
    next hc2 => exact Or.inr (le_of_lt hband.1)
    · rw [flowStepNarrow_blockEnd]
      exact h
  · exact h

/-- The whole walk never lowers `lineLeft`. -/
theorem getFlowAreaLoop_lineLeft_le (bt : BandInfoType) (sh : ShapeType)
    (bs : Int) :
    ∀ (l : List FloatInfo) (st : FlowState),
      st.lineLeft ≤ (getFlowAreaLoop bt sh bs st l).lineLeft := by
  intro l
  induction l with
  | nil => intro st; exact le_rfl
  | cons fi rest ih =>
    intro st
    unfold getFlowAreaLoop
    split
    · exact le_rfl
    · exact le_trans (flowStep_lineLeft_le bt sh bs fi st)
        (ih (flowStep bt sh bs fi st))

/-- The whole walk never raises `lineRight`. -/
theorem getFlowAreaLoop_lineRight_le (bt : BandInfoType) (sh : ShapeType)
    (bs : Int) :
    ∀ (l : List FloatInfo) (st : FlowState),
      (getFlowAreaLoop bt sh bs st l).lineRight ≤ st.lineRight := by
  intro l
  induction l with
  | nil => intro st; exact le_rfl
  | cons fi rest ih =>
    intro st
    unfold getFlowAreaLoop
    split
    · exact le_rfl
    · exact le_trans (ih (flowStep bt sh bs fi st))
        (flowStep_lineRight_le bt sh bs fi st)

/-- The whole walk keeps `blockEnd` at the sentinel or at/above the band
start. -/
theorem getFlowAreaLoop_blockEnd_inv (bt : BandInfoType) (sh : ShapeType)
    (bs : Int) :
    ∀ (l : List FloatInfo) (st : FlowState),
      (st.blockEnd = nscoord_MAX ∨ bs ≤ st.blockEnd) →
      ((getFlowAreaLoop bt sh bs st l).blockEnd = nscoord_MAX ∨
        bs ≤ (getFlowAreaLoop bt sh bs st l).blockEnd) := by
  intro l
  induction l with
  | nil => intro st h; exact h
  | cons fi rest ih =>
    intro st h
    unfold getFlowAreaLoop
    split
    · exact h
    · exact ih (flowStep bt sh bs fi st) (flowStep_blockEnd_inv bt sh bs fi st h)

/-- Under `WidthWithinHeight` the whole walk leaves `blockEnd` unchanged. -/
theorem getFlowAreaLoop_wwh_blockEnd (sh : ShapeType) (bs : Int) :
    ∀ (l : List FloatInfo) (st : FlowState),
      (getFlowAreaLoop BandInfoType.WidthWithinHeight sh bs st l).blockEnd
        = st.blockEnd := by
  intro l
  induction l with
  | nil => intro st; rfl
  | cons fi rest ih =>
    intro st
    unfold getFlowAreaLoop
    split
    · rfl
    · rw [ih, flowStep_wwh_blockEnd]

/-! ### C6: result sizes and position -/

/-- Counterexample to claim C6 as stated: a left float wider than the
content area drives `lineLeft` past `lineRight`, so the returned inline size
is negative (and the inline start lies beyond the content area's end), even
with a non-negative band size and content-area inline size. -/
theorem C6_counterexample :
    (mgrOneLeftFloat.GetFlowArea true 0 50 BandInfoType.BandFromPoint
        ShapeType.Margin 0 100 none 1000).iSize < 0 ∧
    (0 : Int) ≤ 50 ∧ (0 : Int) ≤ 100 := by
  refine ⟨?_, by decide, by decide⟩
  decide

/-- The saturated initial band end is at or above the band start (or the
sentinel) when the requested band size is non-negative. -/
theorem getFlowAreaBlockEnd_inv (blockStart aBSize : Int) (h : 0 ≤ aBSize) :
    getFlowAreaBlockEnd blockStart aBSize = nscoord_MAX ∨
      blockStart ≤ getFlowAreaBlockEnd blockStart aBSize := by
  unfold getFlowAreaBlockEnd
  split
  · exact Or.inl rfl
  split
  · exact Or.inl rfl
  · exact Or.inr (by omega)

/-- On the main path, `blockEnd` ends at the sentinel or at/above the band
start when the requested band size is non-negative. -/
theorem getFlowAreaEdges_blockEnd_inv (m : nsFloatManager)
    (aWMIsBidiLTR : Bool) (aBCoord aBSize : Int)
    (aBandInfoType : BandInfoType) (aShapeType : ShapeType)
    (aContentIStart aContentISize : Int) (aState : Option Nat)
    (aContainerISize : Int) (hB : 0 ≤ aBSize) :
    (getFlowAreaEdges m aWMIsBidiLTR aBCoord aBSize aBandInfoType aShapeType
        aContentIStart aContentISize aState aContainerISize).blockEnd
      = nscoord_MAX ∨
    getFlowAreaBlockStart m aBCoord ≤
      (getFlowAreaEdges m aWMIsBidiLTR aBCoord aBSize aBandInfoType aShapeType
        aContentIStart aContentISize aState aContainerISize).blockEnd := by
  unfold getFlowAreaEdges
  exact getFlowAreaLoop_blockEnd_inv aBandInfoType aShapeType
    (getFlowAreaBlockStart m aBCoord) _ _
    (getFlowAreaBlockEnd_inv (getFlowAreaBlockStart m aBCoord) aBSize hB)

/-- On the main path, `lineLeft` ends at or above its initial value. -/
theorem getFlowAreaEdges_lineLeft_ge (m : nsFloatManager)
    (aWMIsBidiLTR : Bool) (aBCoord aBSize : Int)
    (aBandInfoType : BandInfoType) (aShapeType : ShapeType)
    (aContentIStart aContentISize : Int) (aState : Option Nat)
    (aContainerISize : Int) :
    (getFlowAreaInit m aWMIsBidiLTR aBCoord aBSize aContentIStart
        aContentISize aContainerISize).lineLeft ≤
      (getFlowAreaEdges m aWMIsBidiLTR aBCoord aBSize aBandInfoType aShapeType
        aContentIStart aContentISize aState aContainerISize).lineLeft := by
  unfold getFlowAreaEdges
  exact getFlowAreaLoop_lineLeft_le aBandInfoType aShapeType
    (getFlowAreaBlockStart m aBCoord) _ _

/-- On the main path, `lineRight` ends at or below its initial value. -/
theorem getFlowAreaEdges_lineRight_le (m : nsFloatManager)
    (aWMIsBidiLTR : Bool) (aBCoord aBSize : Int)
    (aBandInfoType : BandInfoType) (aShapeType : ShapeType)
    (aContentIStart aContentISize : Int) (aState : Option Nat)
    (aContainerISize : Int) :
    (getFlowAreaEdges m aWMIsBidiLTR aBCoord aBSize aBandInfoType aShapeType
        aContentIStart aContentISize aState aContainerISize).lineRight ≤
      (getFlowAreaInit m aWMIsBidiLTR aBCoord aBSize aContentIStart
        aContentISize aContainerISize).lineRight := by
  unfold getFlowAreaEdges
  exact getFlowAreaLoop_lineRight_le aBandInfoType aShapeType
    (getFlowAreaBlockStart m aBCoord) _ _

/-- With a non-negative content-area inline size, the initial `lineRight` is
not saturated. -/
theorem getFlowAreaInit_lineRight (m : nsFloatManager) (aWMIsBidiLTR : Bool)
    (aBCoord aBSize : Int) (aContentIStart aContentISize : Int)
    (aContainerISize : Int) (hC : 0 ≤ aContentISize) :
    (getFlowAreaInit m aWMIsBidiLTR aBCoord aBSize aContentIStart
        aContentISize aContainerISize).lineRight =
      m.mLineLeft + (logicalLineLeft aWMIsBidiLTR aContentIStart aContentISize
        aContainerISize + aContentISize) := by
  unfold getFlowAreaInit
  exact if_neg (by omega)

/-- Claim C6 (amended): for a non-negative band size and content-area inline
size, the returned block size is non-negative and the returned inline start
is at or after the content area's inline start.  The claim's further parts —
`inlineSize ≥ 0` and the inline start staying inside the content area — do
not hold: a float wider than the content area pushes the near edge past the
far one (see the counterexample). -/
theorem C6_getFlowArea_sizes (m : nsFloatManager) (aWMIsBidiLTR : Bool)
    (aBCoord aBSize : Int) (aBandInfoType : BandInfoType)
    (aShapeType : ShapeType) (aContentIStart aContentISize : Int)
    (aState : Option Nat) (aContainerISize : Int)
    (hB : 0 ≤ aBSize) (hC : 0 ≤ aContentISize) :
    0 ≤ (m.GetFlowArea aWMIsBidiLTR aBCoord aBSize aBandInfoType aShapeType
        aContentIStart aContentISize aState aContainerISize).bSize ∧
    aContentIStart ≤ (m.GetFlowArea aWMIsBidiLTR aBCoord aBSize aBandInfoType
        aShapeType aContentIStart aContentISize aState aContainerISize).iStart := by
  have hbe := getFlowAreaEdges_blockEnd_inv m aWMIsBidiLTR aBCoord aBSize
    aBandInfoType aShapeType aContentIStart aContentISize aState
    aContainerISize hB
  have hL := getFlowAreaEdges_lineLeft_ge m aWMIsBidiLTR aBCoord aBSize
    aBandInfoType aShapeType aContentIStart aContentISize aState
    aContainerISize
  have hR := getFlowAreaEdges_lineRight_le m aWMIsBidiLTR aBCoord aBSize
    aBandInfoType aShapeType aContentIStart aContentISize aState
    aContainerISize
  rw [getFlowAreaInit_lineRight m aWMIsBidiLTR aBCoord aBSize aContentIStart
    aContentISize aContainerISize hC] at hR
  have hLinit : (getFlowAreaInit m aWMIsBidiLTR aBCoord aBSize aContentIStart
      aContentISize aContainerISize).lineLeft =
      m.mLineLeft + logicalLineLeft aWMIsBidiLTR aContentIStart aContentISize
        aContainerISize := rfl
  rw [hLinit] at hL
  unfold nsFloatManager.GetFlowArea
  split
  · exact ⟨hB, le_rfl⟩
  split
  · exact ⟨hB, le_rfl⟩
  · constructor
    · -- block size
      simp only []
      split
      next => unfold nscoord_MAX; omega
      next hne =>
        rcases hbe with hmax | hge
        · exact absurd hmax hne
        · omega
    · -- inline start
      simp only []
      cases aWMIsBidiLTR with
      | true =>
        rw [if_pos rfl]
        have hcl : logicalLineLeft true aContentIStart aContentISize
            aContainerISize = aContentIStart := rfl
        rw [hcl] at hL
        omega
      | false =>
        rw [if_neg (by simp)]
        have hcl : logicalLineLeft false aContentIStart aContentISize
            aContainerISize = aContainerISize - (aContentIStart + aContentISize) :=
          rfl
        rw [hcl] at hR
        omega

/-- Witness for C6 (amended) at a concrete query. -/
theorem C6_witness :
    0 ≤ (mgrOneLeftFloat.GetFlowArea true 0 50 BandInfoType.BandFromPoint
        ShapeType.Margin 0 1000 none 1000).bSize ∧
    (0 : Int) ≤ (mgrOneLeftFloat.GetFlowArea true 0 50
        BandInfoType.BandFromPoint ShapeType.Margin 0 1000 none 1000).iStart :=
  C6_getFlowArea_sizes mgrOneLeftFloat true 0 50 BandInfoType.BandFromPoint
    ShapeType.Margin 0 1000 none 1000 (by decide) (by decide)

/-! ### C8: conversion of the band edges back to the caller's frame -/

/-- Counterexample to claim C8 as stated: under RTL the source adds the
container's inline size (`LogicalSize(aWM, aContainerSize).ISize(aWM)`), not
the content area's inline size.  With content-area inline size 100 inside a
container of inline size 1000, the returned inline start differs from the
claim's `origin.lineLeft - R + contentAreaSize`. -/
theorem C8_counterexample :
    (mgrOneLeftFloat.GetFlowArea false 0 50 BandInfoType.BandFromPoint
        ShapeType.Margin 0 100 none 1000).iStart ≠
      mgrOneLeftFloat.mLineLeft -
        (getFlowAreaEdges mgrOneLeftFloat false 0 50 BandInfoType.BandFromPoint
          ShapeType.Margin 0 100 none 1000).lineRight + 100 := by
  decide

/-- Claim C8 (amended): on the main path of `GetFlowArea`, with `L`/`R` the
computed band edges in the manager's line-left frame, the returned inline
start is `L - origin.lineLeft` under LTR and `origin.lineLeft - R` plus the
**container's** inline size under RTL (the claim's `contentAreaSize` is the
sole amendment), and the returned inline size is `R - L`. -/
theorem C8_inline_conversion (m : nsFloatManager) (aWMIsBidiLTR : Bool)
    (aBCoord aBSize : Int) (aBandInfoType : BandInfoType)
    (aShapeType : ShapeType) (aContentIStart aContentISize : Int)
    (aState : Option Nat) (aContainerISize : Int) (lastFi : FloatInfo)
    (hlast : (m.mFloats.take (getFlowAreaFloatCount m aState)).getLast?
      = some lastFi)
    (hmain : ¬ (lastFi.mLeftBEnd ≤ getFlowAreaBlockStart m aBCoord ∧
        lastFi.mRightBEnd ≤ getFlowAreaBlockStart m aBCoord)) :
    (m.GetFlowArea aWMIsBidiLTR aBCoord aBSize aBandInfoType aShapeType
        aContentIStart aContentISize aState aContainerISize).iStart =
      (if aWMIsBidiLTR then
        (getFlowAreaEdges m aWMIsBidiLTR aBCoord aBSize aBandInfoType
          aShapeType aContentIStart aContentISize aState
          aContainerISize).lineLeft - m.mLineLeft
      else
        m.mLineLeft - (getFlowAreaEdges m aWMIsBidiLTR aBCoord aBSize
          aBandInfoType aShapeType aContentIStart aContentISize aState
          aContainerISize).lineRight + aContainerISize) ∧
    (m.GetFlowArea aWMIsBidiLTR aBCoord aBSize aBandInfoType aShapeType
        aContentIStart aContentISize aState aContainerISize).iSize =
      (getFlowAreaEdges m aWMIsBidiLTR aBCoord aBSize aBandInfoType aShapeType
        aContentIStart aContentISize aState aContainerISize).lineRight -
      (getFlowAreaEdges m aWMIsBidiLTR aBCoord aBSize aBandInfoType aShapeType
        aContentIStart aContentISize aState aContainerISize).lineLeft := by
  unfold nsFloatManager.GetFlowArea
  simp only [hlast]
  rw [if_neg hmain]
  exact ⟨rfl, rfl⟩

/-- Witness for C8 (amended) at a concrete query. -/
theorem C8_witness :
    (mgrOneLeftFloat.GetFlowArea true 0 50 BandInfoType.BandFromPoint
        ShapeType.Margin 0 1000 none 1000).iStart =
      (if true then
        (getFlowAreaEdges mgrOneLeftFloat true 0 50 BandInfoType.BandFromPoint
          ShapeType.Margin 0 1000 none 1000).lineLeft -
          mgrOneLeftFloat.mLineLeft
      else
        mgrOneLeftFloat.mLineLeft -
          (getFlowAreaEdges mgrOneLeftFloat true 0 50
            BandInfoType.BandFromPoint ShapeType.Margin 0 1000 none
            1000).lineRight + 1000) :=
  (C8_inline_conversion mgrOneLeftFloat true 0 50 BandInfoType.BandFromPoint
    ShapeType.Margin 0 1000 none 1000 sampleFloat rfl (by decide)).1

/-! ### C2: WidthWithinHeight is at least as narrow as BandFromPoint -/

/-- A float's shape strategy answers wider bands with edges at least as
intruding: extending the band can only move `lineRight` rightward and
`lineLeft` leftward.  Every geometric shape of the source satisfies this
(the shape's intersection with a larger band is larger); the interface
model takes it as a hypothesis. -/
def ShapeBandMonotone (fi : FloatInfo) : Prop :=
  ∀ s, fi.mShapeInfo = some s →
    ∀ b e e' : Int, b ≤ e → e ≤ e' →
      s.lineRight b e ≤ s.lineRight b e' ∧ s.lineLeft b e' ≤ s.lineLeft b e

/-- The clipped `LineRight` inherits band monotonicity from the shape. -/
theorem FloatInfo.lineRight_band_mono (fi : FloatInfo)
    (hm : ShapeBandMonotone fi) (sh : ShapeType) (b e e' : Int)
    (h1 : b ≤ e) (h2 : e ≤ e') :
    fi.LineRight sh b e ≤ fi.LineRight sh b e' := by
  cases sh with
  | Margin => exact le_rfl
  | ShapeOutside =>
    unfold FloatInfo.LineRight
    cases hs : fi.mShapeInfo with
    | none => exact le_rfl
    | some s => exact min_le_min le_rfl ((hm s hs b e e' h1 h2).1)

/-- The clipped `LineLeft` inherits band antitonicity from the shape. -/
theorem FloatInfo.lineLeft_band_anti (fi : FloatInfo)
    (hm : ShapeBandMonotone fi) (sh : ShapeType) (b e e' : Int)
    (h1 : b ≤ e) (h2 : e ≤ e') :
    fi.LineLeft sh b e' ≤ fi.LineLeft sh b e := by
  cases sh with
  | Margin => exact le_rfl
  | ShapeOutside =>
    unfold FloatInfo.LineLeft
    cases hs : fi.mShapeInfo with
    | none => exact le_rfl
    | some s => exact max_le_max le_rfl ((hm s hs b e e' h1 h2).2)

/-- The narrowing step of a left float, as an equation. -/
theorem flowStepNarrow_of_left (bt : BandInfoType) (sh : ShapeType)
    (bs : Int) (fi : FloatInfo) (st : FlowState)
    (h : fi.mFloatStyle = StyleFloat.Left) :
    flowStepNarrow bt sh bs fi st =
      if fi.LineRight sh bs (bandBlockEndFor bt bs st.blockEnd) > st.lineLeft
      then { st with
        lineLeft := fi.LineRight sh bs (bandBlockEndFor bt bs st.blockEnd),
        haveFloats := true }
      else st := by
  unfold flowStepNarrow
  rw [h]

/-- The narrowing step of a right float, as an equation. -/
theorem flowStepNarrow_of_right (bt : BandInfoType) (sh : ShapeType)
    (bs : Int) (fi : FloatInfo) (st : FlowState)
    (h : fi.mFloatStyle = StyleFloat.Right) :
    flowStepNarrow bt sh bs fi st =
      if fi.LineLeft sh bs (bandBlockEndFor bt bs st.blockEnd) < st.lineRight
      then { st with
        lineRight := fi.LineLeft sh bs (bandBlockEndFor bt bs st.blockEnd),
        haveFloats := true }
      else st := by
  unfold flowStepNarrow
  rw [h]

/-- A `BandFromPoint` iteration either leaves both line edges unchanged, or
it is a genuine narrowing of an in-band float (`BStart ≤ blockStart <
BEnd`) whose line edges agree with the narrowing step. -/
theorem flowStep_bfp_fields (sh : ShapeType) (bs : Int) (fi : FloatInfo)
    (stB : FlowState) :
    ((flowStep BandInfoType.BandFromPoint sh bs fi stB).lineLeft
        = stB.lineLeft ∧
      (flowStep BandInfoType.BandFromPoint sh bs fi stB).lineRight
        = stB.lineRight) ∨
    (fi.IsEmpty sh = false ∧ fi.BStart sh ≤ bs ∧ bs < fi.BEnd sh ∧
      (flowStep BandInfoType.BandFromPoint sh bs fi stB).lineLeft
        = (flowStepNarrow BandInfoType.BandFromPoint sh bs fi stB).lineLeft ∧
      (flowStep BandInfoType.BandFromPoint sh bs fi stB).lineRight
        = (flowStepNarrow BandInfoType.BandFromPoint sh bs fi stB).lineRight) := by
  unfold flowStep
  split
  · exact Or.inl ⟨rfl, rfl⟩
  next hne =>
    split
    · split
      · exact Or.inl ⟨rfl, rfl⟩
      · exact Or.inl ⟨rfl, rfl⟩
    next hfirst =>
      split
      next hband =>
        have hstart : fi.BStart sh ≤ bs :=
          not_lt.mp (fun hlt => hfirst ⟨hlt, rfl⟩)
        have hempty : fi.IsEmpty sh = false := by
          cases he : fi.IsEmpty sh with
          | true => exact absurd he hne
          | false => rfl
        split
        · exact Or.inr ⟨hempty, hstart, hband.1, rfl, rfl⟩
        · exact Or.inr ⟨hempty, hstart, hband.1, rfl, rfl⟩
      · exact Or.inl ⟨rfl, rfl⟩

/-- A `WidthWithinHeight` iteration on a non-empty in-band float (with the
band end at/after the band start) is exactly the narrowing step; this
carries the degenerate zero-height case `BStart = blockStart = blockEnd`. -/
theorem flowStep_wwh_narrows (sh : ShapeType) (bs : Int) (fi : FloatInfo)
    (stW : FlowState) (hne : fi.IsEmpty sh = false)
    (h1 : fi.BStart sh ≤ bs) (h2 : bs < fi.BEnd sh)
    (hbe : bs ≤ stW.blockEnd) :
    flowStep BandInfoType.WidthWithinHeight sh bs fi stW
      = flowStepNarrow BandInfoType.WidthWithinHeight sh bs fi stW := by
  unfold flowStep
  rw [if_neg (by simp [hne])]
  rw [if_neg (by rintro ⟨-, hc⟩; cases hc)]
  rw [if_pos ?_, if_neg (by rintro ⟨-, hc⟩; cases hc)]
  refine ⟨h2, ?_⟩
  by_cases hlt : fi.BStart sh < stW.blockEnd
  · exact Or.inl hlt
  · exact Or.inr ⟨by omega, by omega⟩

/-- Comparing the two narrowing steps: with the `WidthWithinHeight` state no
wider than the `BandFromPoint` state and a band end at/after the band start,
the `WidthWithinHeight` narrowing stays at least as narrow on both sides. -/
theorem flowStepNarrow_compare (sh : ShapeType) (bs : Int) (fi : FloatInfo)
    (hm : ShapeBandMonotone fi) (stB stW : FlowState)
    (hL : stB.lineLeft ≤ stW.lineLeft) (hR : stW.lineRight ≤ stB.lineRight)
    (hWE : bs ≤ stW.blockEnd) :
    (flowStepNarrow BandInfoType.BandFromPoint sh bs fi stB).lineLeft ≤
      (flowStepNarrow BandInfoType.WidthWithinHeight sh bs fi stW).lineLeft ∧
    (flowStepNarrow BandInfoType.WidthWithinHeight sh bs fi stW).lineRight ≤
      (flowStepNarrow BandInfoType.BandFromPoint sh bs fi stB).lineRight := by
  have hbandB : bandBlockEndFor BandInfoType.BandFromPoint bs stB.blockEnd = bs := by
    unfold bandBlockEndFor
    rw [if_pos rfl]
  have hbandW : bandBlockEndFor BandInfoType.WidthWithinHeight bs stW.blockEnd
      = stW.blockEnd := by
    unfold bandBlockEndFor
    rw [if_neg (by decide)]
  cases hstyle : fi.mFloatStyle with
  | Left =>
    rw [flowStepNarrow_of_left BandInfoType.BandFromPoint sh bs fi stB hstyle,
      flowStepNarrow_of_left BandInfoType.WidthWithinHeight sh bs fi stW hstyle,
      hbandB, hbandW]
    have hedge : fi.LineRight sh bs bs ≤ fi.LineRight sh bs stW.blockEnd :=
      fi.lineRight_band_mono hm sh bs bs stW.blockEnd le_rfl hWE
    constructor
    · split
      next hb =>
        split
        next hw => exact hedge
        next hw => simp only [not_lt] at hw; dsimp only; omega
      next hb =>
        split
        next hw => simp only [not_lt] at hb; dsimp only; omega
        next hw => exact hL
    · split
      next hb =>
        split
        next hw => exact hR
        next hw => exact hR
      next hb =>
        split
        next hw => exact hR
        next hw => exact hR
  | Right =>
    rw [flowStepNarrow_of_right BandInfoType.BandFromPoint sh bs fi stB hstyle,
      flowStepNarrow_of_right BandInfoType.WidthWithinHeight sh bs fi stW hstyle,
      hbandB, hbandW]
    have hedge : fi.LineLeft sh bs stW.blockEnd ≤ fi.LineLeft sh bs bs :=
      fi.lineLeft_band_anti hm sh bs bs stW.blockEnd le_rfl hWE
    constructor
    · split
      next hb =>
        split
        next hw => exact hL
        next hw => exact hL
      next hb =>
        split
        next hw => exact hL
        next hw => exact hL
    · split
      next hb =>
        split
        next hw => exact hedge
        next hw => simp only [not_lt] at hw; dsimp only; omega
      next hb =>
        split
        next hw => simp only [not_lt] at hb; dsimp only; omega
        next hw => exact hR

/-- One walk iteration preserves "`WidthWithinHeight` is at least as narrow
on both sides, with its `blockEnd` pinned". -/
theorem flowStep_narrower (sh : ShapeType) (bs E0 : Int) (hE : bs ≤ E0)
    (fi : FloatInfo) (hm : ShapeBandMonotone fi) (stB stW : FlowState)
    (hL : stB.lineLeft ≤ stW.lineLeft) (hR : stW.lineRight ≤ stB.lineRight)
    (hW : stW.blockEnd = E0) :
    (flowStep BandInfoType.BandFromPoint sh bs fi stB).lineLeft ≤
      (flowStep BandInfoType.WidthWithinHeight sh bs fi stW).lineLeft ∧
    (flowStep BandInfoType.WidthWithinHeight sh bs fi stW).lineRight ≤
      (flowStep BandInfoType.BandFromPoint sh bs fi stB).lineRight ∧
    (flowStep BandInfoType.WidthWithinHeight sh bs fi stW).blockEnd = E0 := by
  have hWb : (flowStep BandInfoType.WidthWithinHeight sh bs fi stW).blockEnd
      = E0 := by
    rw [flowStep_wwh_blockEnd]
    exact hW
  have hWE : bs ≤ stW.blockEnd := by omega
  rcases flowStep_bfp_fields sh bs fi stB with ⟨hBL, hBR⟩ |
      ⟨hne, h1, h2, hBL, hBR⟩
  · refine ⟨?_, ?_, hWb⟩
    · rw [hBL]
      exact le_trans hL
        (flowStep_lineLeft_le BandInfoType.WidthWithinHeight sh bs fi stW)
    · rw [hBR]
      exact le_trans
        (flowStep_lineRight_le BandInfoType.WidthWithinHeight sh bs fi stW) hR
  · have hwwh := flowStep_wwh_narrows sh bs fi stW hne h1 h2 hWE
    have hcomp := flowStepNarrow_compare sh bs fi hm stB stW hL hR hWE
    refine ⟨?_, ?_, hWb⟩
    · rw [hBL, hwwh]
      exact hcomp.1
    · rw [hBR, hwwh]
      exact hcomp.2

/-- The whole walk preserves the narrowness comparison. -/
theorem getFlowAreaLoop_narrower (sh : ShapeType) (bs E0 : Int)
    (hE : bs ≤ E0) :
    ∀ l : List FloatInfo, (∀ fi ∈ l, ShapeBandMonotone fi) →
      ∀ stB stW : FlowState, stB.lineLeft ≤ stW.lineLeft →
        stW.lineRight ≤ stB.lineRight → stW.blockEnd = E0 →
        (getFlowAreaLoop BandInfoType.BandFromPoint sh bs stB l).lineLeft ≤
          (getFlowAreaLoop BandInfoType.WidthWithinHeight sh bs stW l).lineLeft ∧
        (getFlowAreaLoop BandInfoType.WidthWithinHeight sh bs stW l).lineRight ≤
          (getFlowAreaLoop BandInfoType.BandFromPoint sh bs stB l).lineRight := by
  intro l
  induction l with
  | nil => intro _ stB stW hL hR _; exact ⟨hL, hR⟩
  | cons fi rest ih =>
    intro hmono stB stW hL hR hW
    unfold getFlowAreaLoop
    by_cases hc : fi.mLeftBEnd ≤ bs ∧ fi.mRightBEnd ≤ bs
    · rw [if_pos hc, if_pos hc]
      exact ⟨hL, hR⟩
    · rw [if_neg hc, if_neg hc]
      have hstep := flowStep_narrower sh bs E0 hE fi
        (hmono fi (List.mem_cons_self fi rest)) stB stW hL hR hW
      exact ih (fun g hg => hmono g (List.mem_cons_of_mem fi hg)) _ _
        hstep.1 hstep.2.1 hstep.2.2

/-- Claim C2: with the same state and content area, a `WidthWithinHeight`
query over `[B, B+H]` (`H ≥ 0`) returns an inline region at least as narrow
on both sides (inline start no smaller, inline end no larger) as a
`BandFromPoint` query starting at `B` with any requested band size; and a
zero-height `WidthWithinHeight` iteration does include a float whose block
extent begins exactly at the band start (its inline contribution is
consulted, exactly as the `BandFromPoint` query at `B` would).  Shapes are
assumed band-monotone (true of all geometric shape strategies), and the
band start is assumed within the coordinate range. -/
theorem C2_wwh_narrower :
    (∀ (m : nsFloatManager) (aWMIsBidiLTR : Bool)
        (aBCoord aBSize bSizeB : Int) (aShapeType : ShapeType)
        (aContentIStart aContentISize : Int) (aState : Option Nat)
        (aContainerISize : Int),
      0 ≤ aBSize →
      aBCoord + m.mBlockStart ≤ nscoord_MAX →
      (∀ fi ∈ m.mFloats.take (getFlowAreaFloatCount m aState),
        ShapeBandMonotone fi) →
      (m.GetFlowArea aWMIsBidiLTR aBCoord bSizeB BandInfoType.BandFromPoint
          aShapeType aContentIStart aContentISize aState
          aContainerISize).iStart ≤
        (m.GetFlowArea aWMIsBidiLTR aBCoord aBSize
          BandInfoType.WidthWithinHeight aShapeType aContentIStart
          aContentISize aState aContainerISize).iStart ∧
      (m.GetFlowArea aWMIsBidiLTR aBCoord aBSize
          BandInfoType.WidthWithinHeight aShapeType aContentIStart
          aContentISize aState aContainerISize).iStart +
        (m.GetFlowArea aWMIsBidiLTR aBCoord aBSize
          BandInfoType.WidthWithinHeight aShapeType aContentIStart
          aContentISize aState aContainerISize).iSize ≤
        (m.GetFlowArea aWMIsBidiLTR aBCoord bSizeB BandInfoType.BandFromPoint
          aShapeType aContentIStart aContentISize aState
          aContainerISize).iStart +
        (m.GetFlowArea aWMIsBidiLTR aBCoord bSizeB BandInfoType.BandFromPoint
          aShapeType aContentIStart aContentISize aState
          aContainerISize).iSize) ∧
    (∀ (sh : ShapeType) (bs : Int) (fi : FloatInfo) (st : FlowState),
      st.blockEnd = bs → fi.IsEmpty sh = false → fi.BStart sh = bs →
      bs < fi.BEnd sh →
      (fi.mFloatStyle = StyleFloat.Left →
        (flowStep BandInfoType.WidthWithinHeight sh bs fi st).lineLeft
          = max st.lineLeft (fi.LineRight sh bs bs)) ∧
      (fi.mFloatStyle = StyleFloat.Right →
        (flowStep BandInfoType.WidthWithinHeight sh bs fi st).lineRight
          = min st.lineRight (fi.LineLeft sh bs bs))) := by
  constructor
  · intro m ltr aBCoord aBSize bSizeB sh ciStart ciSize state cs hB hrange hmono
    have hbs : getFlowAreaBlockStart m aBCoord ≤ nscoord_MAX := by
      unfold getFlowAreaBlockStart
      split
      · unfold nscoord_MIN nscoord_MAX
        omega
      · exact hrange
    have hE : getFlowAreaBlockStart m aBCoord ≤
        getFlowAreaBlockEnd (getFlowAreaBlockStart m aBCoord) aBSize := by
      unfold getFlowAreaBlockEnd
      split
      · exact hbs
      split
      · exact hbs
      · omega
    unfold nsFloatManager.GetFlowArea
    cases hlast : (m.mFloats.take (getFlowAreaFloatCount m state)).getLast? with
    | none =>
      simp only [hlast]
      exact ⟨le_rfl, le_rfl⟩
    | some lastFi =>
      simp only [hlast]
      by_cases hbelow : lastFi.mLeftBEnd ≤ getFlowAreaBlockStart m aBCoord ∧
          lastFi.mRightBEnd ≤ getFlowAreaBlockStart m aBCoord
      · rw [if_pos hbelow, if_pos hbelow]
        exact ⟨le_rfl, le_rfl⟩
      · rw [if_neg hbelow, if_neg hbelow]
        have hmono' : ∀ fi ∈
            (m.mFloats.take (getFlowAreaFloatCount m state)).reverse,
            ShapeBandMonotone fi := by
          intro g hg
          exact hmono g (List.mem_reverse.mp hg)
        have hloop := getFlowAreaLoop_narrower sh
          (getFlowAreaBlockStart m aBCoord)
          (getFlowAreaBlockEnd (getFlowAreaBlockStart m aBCoord) aBSize) hE
          ((m.mFloats.take (getFlowAreaFloatCount m state)).reverse) hmono'
          (getFlowAreaInit m ltr aBCoord bSizeB ciStart ciSize cs)
          (getFlowAreaInit m ltr aBCoord aBSize ciStart ciSize cs)
          le_rfl le_rfl rfl
        obtain ⟨hLcmp, hRcmp⟩ := hloop
        unfold getFlowAreaEdges
        refine ⟨?_, ?_⟩ <;>
          · dsimp only
            cases ltr
            · simp only [Bool.false_eq_true, if_false]
              omega
            · simp only [reduceIte]
              omega
  · intro sh bs fi st hbe hne h1 h2
    have hstep := flowStep_wwh_narrows sh bs fi st hne (le_of_eq h1) h2
      (le_of_eq hbe.symm)
    have hband : bandBlockEndFor BandInfoType.WidthWithinHeight bs st.blockEnd
        = bs := by
      unfold bandBlockEndFor
      rw [if_neg (by decide)]
      exact hbe
    constructor
    · intro hleft
      rw [hstep, flowStepNarrow_of_left BandInfoType.WidthWithinHeight sh bs
        fi st hleft, hband]
      split
      next h =>
        exact (max_eq_right (le_of_lt h)).symm
      next h =>
        exact (max_eq_left (by omega)).symm
    · intro hright
      rw [hstep, flowStepNarrow_of_right BandInfoType.WidthWithinHeight sh bs
        fi st hright, hband]
      split
      next h =>
        exact (min_eq_right (le_of_lt h)).symm
      next h =>
        exact (min_eq_left (by omega)).symm

/-- Witness for C2 at a concrete one-float manager and a zero-height
`WidthWithinHeight` query against a `BandFromPoint` query. -/
theorem C2_witness :
    (mgrOneLeftFloat.GetFlowArea true 0 50 BandInfoType.BandFromPoint
        ShapeType.Margin 0 1000 none 1000).iStart ≤
      (mgrOneLeftFloat.GetFlowArea true 0 0 BandInfoType.WidthWithinHeight
        ShapeType.Margin 0 1000 none 1000).iStart :=
  ((C2_wwh_narrower).1 mgrOneLeftFloat true 0 0 50 ShapeType.Margin 0 1000
    none 1000 (by decide) (by decide)
    (by
      intro fi hfi s hs
      simp only [getFlowAreaFloatCount, mgrOneLeftFloat] at hfi
      simp only [List.take_length, List.mem_singleton] at hfi
      subst hfi
      simp [sampleFloat] at hs)).1

end FloatMgr
